import Mathlib

/-!
Verification of the sandbox sync engine (franklin-ross/sandbox).

This file shallowly embeds the Go sync engine: the config store
(src/cmd/config.go), the firewall compiler (src/cmd/configcmd.go), the
manifest builder and sync orchestrator (src/cmd/sync.go).  Pure Go
functions become Lean functions; I/O (filesystem reads, DNS lookups,
docker calls, host environment) is passed in explicitly as world records,
and the orchestrator additionally returns the trace of container-mutating
and network operations it performs.  SHA-256 is modelled by the exact byte
stream written into the hash: the digest function itself is kept abstract
(a parameter where needed), and only its determinism is ever used.
-/

namespace Sandbox

/-- Bytes of a string, one abstract byte per character.  The Go code hashes
and writes UTF-8 bytes; for the equality reasoning done here only
injectivity of the encoding on each string matters, so characters are used
directly as the byte alphabet. -/
def strBytes (s : String) : List Nat :=
  s.data.map Char.toNat

/-- Whether the first list opens the second (used for the literal
string tests the Go code makes; implemented over characters so that it
evaluates by kernel reduction). -/
def listOpens : List Char → List Char → Bool
  | [], _ => true
  | _ :: _, [] => false
  | p :: ps, c :: cs => p = c && listOpens ps cs

/-- strings.HasPrefix p s. -/
def strOpens (p s : String) : Bool := listOpens p.data s.data

/-- Drop the first n characters of a string. -/
def strDrop (s : String) (n : Nat) : String := String.mk (s.data.drop n)

/-- Whether a string ends in the given character. -/
def strEndsInChar (s : String) (c : Char) : Bool := s.data.getLast? = some c

/-- SyncRule from src/cmd/config.go: one `sync:` list entry. -/
structure SyncRule where
  src : String
  dest : String
  mode : String
  owner : String
deriving Repr, DecidableEq

/-- FirewallEntry from src/cmd/config.go: one `firewall.allow` entry. -/
structure FirewallEntry where
  domain : String
  cidr : String
  ports : List Int
deriving Repr, DecidableEq

/-- OnSyncHook: the `on_sync` hook record.  The struct itself is declared in
a config-store revision outside src/; its three fields (Cmd, Name, Root) are
fixed by the uses in src/cmd/sync.go (hook.Cmd, hook.Name, hook.Root) and by
src/cmd/config_test.go. -/
structure OnSyncHook where
  cmd : String
  name : String
  root : Bool
deriving Repr, DecidableEq

/-- SandboxConfig from src/cmd/config.go.  Env is a Go map modelled as an
association list (the map never holds duplicate keys; theorems that need
map semantics carry a NoDup hypothesis on the keys).  onSync is the hook
list used by src/cmd/sync.go. -/
structure SandboxConfig where
  sync : List SyncRule
  env : List (String × String)
  firewall : List FirewallEntry
  onSync : List OnSyncHook
deriving Repr, DecidableEq

/-- SyncItem from src/cmd/config.go: bytes, destination, mode, owner. -/
structure SyncItem where
  data : List Nat
  dest : String
  mode : String
  owner : String
deriving Repr, DecidableEq

/-! ## Path and string helpers (src/cmd/config.go) -/

/-- filepath.Join of two segments, for the joins the sync engine performs
(neither argument empty, no interior `..` cleaning needed at call sites). -/
def joinPath (a b : String) : String :=
  if strEndsInChar a '/' then a ++ b else a ++ "/" ++ b

/-- filepath.Base for the non-empty, no-trailing-slash paths produced by
glob expansion: the part after the last slash. -/
def baseName (p : String) : String :=
  String.mk ((p.data.reverse.takeWhile (fun c => ¬ (c = '/'))).reverse)

/-- expandTilde from src/cmd/config.go, with the host home directory passed
in (os.UserHomeDir); on a home-dir error the path is returned unchanged. -/
def expandTilde (userHome : Option String) (p : String) : String :=
  if strOpens "~/" p then
    match userHome with
    | some h => joinPath h (strDrop p 2)
    | none => p
  else p

/-- expandContainerTilde from src/cmd/config.go. -/
def expandContainerTilde (p : String) : String :=
  if strOpens "~/" p then "/home/agent/" ++ strDrop p 2 else p

/-- The single-quote character, written by code point to keep the file free
of quote characters. -/
def squote : Char := Char.ofNat 39

/-- shellQuote from src/cmd/config.go: wrap in single quotes, replacing each
embedded single quote by the quote-escape sequence. -/
def shellQuote (s : String) : String :=
  String.mk ([squote] ++ s.data.flatMap
    (fun c => if c = squote then [squote, '"', squote, '"', squote] else [c]) ++ [squote])

/-! ## Environment file generation (generateEnvFile, src/cmd/config.go) -/

/-- os.Getenv over a host environment modelled as a partial map.  The OS
cannot distinguish an unset variable from one set to the empty string, and
the empty variable name is never set; Getenv returns the empty string in
all those cases. -/
def goGetenv (g : String → Option String) (x : String) : String :=
  if x = "" then "" else (g x).getD ""

/-- sort.Strings: lexicographic ascending sort of the key list. -/
def sortStrings (l : List String) : List String :=
  List.insertionSort (fun a b => a ≤ b) l

/-- First-match lookup in an association list (Go map read). -/
def envLookup {α : Type} : List (String × α) → String → Option α
  | [], _ => none
  | e :: rest, k => if e.1 = k then some e.2 else envLookup rest k

/-- Left-biased choice (used to state lookup laws). -/
def optOr {α : Type} : Option α → Option α → Option α
  | some x, _ => some x
  | none, y => y

/-- Body of the per-key loop in generateEnvFile: the `export` line for key
`k` with configured value `v`, or none when a host-referencing value
expands to the empty string and the entry is dropped. -/
def envEntryLine (g : String → Option String) (k v : String) : Option String :=
  if strOpens "$" v then
    let expanded := goGetenv g (strDrop v 1)
    if expanded = "" then none
    else some ("export " ++ k ++ "=" ++ shellQuote expanded ++ "\n")
  else some ("export " ++ k ++ "=" ++ shellQuote v ++ "\n")

/-- The lines written by generateEnvFile, in sorted key order. -/
def envFileLines (g : String → Option String) (env : List (String × String)) : List String :=
  (sortStrings (env.map (fun e => e.1))).filterMap
    (fun k => (envLookup env k).bind (envEntryLine g k))

/-- generateEnvFile from src/cmd/config.go: nil for an empty map, nil when
every entry is dropped, otherwise the concatenated export lines. -/
def generateEnvFile (g : String → Option String) (env : List (String × String)) : Option (List Nat) :=
  if env = [] then none
  else
    let out := String.join (envFileLines g env)
    if out = "" then none else some (strBytes out)

/-! ## strings.TrimSpace (used on the stored fingerprint) -/

/-- unicode.IsSpace restricted to the characters that can occur here. -/
def goIsSpace (c : Char) : Bool :=
  c = ' ' ∨ c = '\t' ∨ c = '\n' ∨ c = Char.ofNat 11 ∨ c = Char.ofNat 12 ∨ c = '\r'

/-- strings.TrimSpace: strip leading and trailing whitespace. -/
def goTrimSpace (s : String) : String :=
  String.mk (((s.data.dropWhile goIsSpace).reverse.dropWhile goIsSpace).reverse)

/-! ## net.ParseIP and the address predicates used by the resolver

The resolver classifies the strings returned by net.LookupHost by parsing
them (net.ParseIP) and testing IsUnspecified and To4.  An IP is modelled in
its 16-byte form, i.e. as the list of byte values Go stores; a dotted-quad
input parses to the 4-in-6 mapped form, exactly as net.ParseIP returns. -/

/-- Split a character list on a separator, keeping empty segments. -/
def splitOnChar (c : Char) : List Char → List (List Char)
  | [] => [[]]
  | x :: xs =>
    let r := splitOnChar c xs
    if x = c then [] :: r
    else
      match r with
      | [] => [[x]]
      | h :: t => (x :: h) :: t

/-- Decimal digit value. -/
def digitVal (c : Char) : Option Nat :=
  if '0' ≤ c ∧ c ≤ '9' then some (c.toNat - '0'.toNat) else none

/-- Hexadecimal digit value. -/
def hexVal (c : Char) : Option Nat :=
  if '0' ≤ c ∧ c ≤ '9' then some (c.toNat - '0'.toNat)
  else if 'a' ≤ c ∧ c ≤ 'f' then some (c.toNat - 'a'.toNat + 10)
  else if 'A' ≤ c ∧ c ≤ 'F' then some (c.toNat - 'A'.toNat + 10)
  else none

/-- One dotted-quad field: 1 to 3 decimal digits, no leading zero, at most
255 (the Go parser rejects leading zeros and out-of-range fields). -/
def parseOctet (cs : List Char) : Option Nat :=
  if cs = [] ∨ cs.length > 3 then none
  else if cs.length > 1 ∧ cs.head? = some '0' then none
  else
    match cs.mapM digitVal with
    | none => none
    | some ds =>
      let v := ds.foldl (fun a d => a * 10 + d) 0
      if v ≤ 255 then some v else none

/-- The four bytes of a dotted-quad address. -/
def parseV4Bytes (cs : List Char) : Option (List Nat) :=
  match (splitOnChar '.' cs).mapM parseOctet with
  | some [a, b, c, d] => some [a, b, c, d]
  | _ => none

/-- The Go 4-in-6 mapped prefix. -/
def v4Mapped (bs : List Nat) : List Nat :=
  [0, 0, 0, 0, 0, 0, 0, 0, 0, 0, 255, 255] ++ bs

/-- One IPv6 hextet: 1 to 4 hexadecimal digits. -/
def hexField (cs : List Char) : Option Nat :=
  if cs = [] ∨ cs.length > 4 then none
  else
    match cs.mapM hexVal with
    | none => none
    | some ds => some (ds.foldl (fun a d => a * 16 + d) 0)

/-- Bytes contributed by one colon-separated side of an IPv6 address.
A dotted-quad field is only legal as the very last field of the address
(isTail marks the side that ends the address). -/
def sideBytes (isTail : Bool) : List (List Char) → Option (List Nat)
  | [] => some []
  | [f] =>
    if f.contains '.' then
      if isTail then parseV4Bytes f else none
    else (hexField f).map (fun n => [n / 256, n % 256])
  | f :: g :: rest =>
    if f.contains '.' then none
    else
      match hexField f, sideBytes isTail (g :: rest) with
      | some n, some bs => some ([n / 256, n % 256] ++ bs)
      | _, _ => none

/-- Split around the first double colon, if any. -/
def splitDoubleColon : List Char → Option (List Char × List Char)
  | [] => none
  | [_] => none
  | a :: b :: rest =>
    if a = ':' ∧ b = ':' then some ([], rest)
    else
      match splitDoubleColon (b :: rest) with
      | some (pre, post) => some (a :: pre, post)
      | none => none

/-- Fields of one side of an IPv6 address. -/
def sideFields (cs : List Char) : List (List Char) :=
  if cs = [] then [] else splitOnChar ':' cs

/-- IPv6 textual form: hextets separated by colons, at most one double
colon standing for a run of zero bytes, optional embedded dotted quad at
the end.  Exactly 16 bytes without a double colon; fewer with one. -/
def parseV6Bytes (cs : List Char) : Option (List Nat) :=
  match splitDoubleColon cs with
  | some (pre, post) =>
    if (splitDoubleColon post).isSome then none
    else
      match sideBytes false (sideFields pre), sideBytes true (sideFields post) with
      | some b1, some b2 =>
        if b1.length + b2.length ≤ 14 then
          some (b1 ++ List.replicate (16 - b1.length - b2.length) 0 ++ b2)
        else none
      | _, _ => none
  | none =>
    match sideBytes true (sideFields cs) with
    | some bs => if bs.length = 16 then some bs else none
    | none => none

/-- net.ParseIP dispatches on the first dot or colon encountered. -/
def ipKind : List Char → Option Bool
  | [] => none
  | c :: rest =>
    if c = '.' then some false
    else if c = ':' then some true
    else ipKind rest

/-- net.ParseIP: 16-byte form, or none for an invalid literal. -/
def parseIP (s : String) : Option (List Nat) :=
  match ipKind s.data with
  | some false => (parseV4Bytes s.data).map v4Mapped
  | some true => parseV6Bytes s.data
  | none => none

/-- IP.To4: the 4-byte form when the address is 4-in-6 mapped. -/
def goTo4 (ip : List Nat) : Option (List Nat) :=
  if ip.take 12 = [0, 0, 0, 0, 0, 0, 0, 0, 0, 0, 255, 255] ∧ ip.length = 16 then
    some (ip.drop 12)
  else none

/-- IP.IsUnspecified: equal to 0.0.0.0 or to the all-zero IPv6 address. -/
def goIsUnspecified (ip : List Nat) : Bool :=
  ip = v4Mapped [0, 0, 0, 0] ∨ ip = List.replicate 16 0

/-- IP.IsLinkLocalUnicast: 169.254.0.0/16 for IPv4, fe80::/10 for IPv6. -/
def goIsLinkLocalUnicast (ip : List Nat) : Bool :=
  match goTo4 ip with
  | some bs => bs.head? = some 169 ∧ bs.get? 1 = some 254
  | none =>
    match ip.get? 1 with
    | some b => ip.length = 16 ∧ ip.head? = some 254 ∧ b &&& 192 = 128
    | none => false

/-! ## Firewall resolution (src/cmd/configcmd.go) -/

/-- resolvedEntry: a firewall entry after DNS resolution. -/
structure resolvedEntry where
  v4 : List String
  v6 : List String
  ports : List Int
deriving Repr, DecidableEq

/-- What the system resolver knows about one name.  net.LookupHost returns
the terminal A/AAAA addresses (the libc resolver follows CNAME chains
internally); the cname field records whether the name is an alias, which
the Go code never asks about. -/
structure DNSRecord where
  addrs : Except String (List String)
  cname : Option String
deriving Repr

/-- The classification loop over one lookup result: skip unparseable and
unspecified addresses, put the rest in the v4 or v6 bucket by To4. -/
def classifyIPs (ips : List String) : List String × List String :=
  ips.foldl
    (fun acc ip =>
      match parseIP ip with
      | none => acc
      | some parsed =>
        if goIsUnspecified parsed then acc
        else if (goTo4 parsed).isSome then (acc.1 ++ [ip], acc.2)
        else (acc.1, acc.2 ++ [ip]))
    ([], [])

/-- Port defaulting for domain entries: 80 and 443 when none configured. -/
def defaultedPorts (ports : List Int) : List Int :=
  if ports = [] then [80, 443] else ports

/-- resolveFirewallEntries (and the loop body of
resolveFirewallEntriesAsync, which is identical): walk the allow list;
each domain entry performs one LookupHost call (recorded in the returned
trace), a failed lookup drops the entry with a warning, a successful one
is classified into buckets; CIDR entries pass through.  Returns
(lookup trace, resolved domain entries, CIDR entries). -/
def resolveFirewallEntries (dns : String → DNSRecord) :
    List FirewallEntry → List String × List resolvedEntry × List FirewallEntry
  | [] => ([], [], [])
  | e :: rest =>
    let (tr, ds, cs) := resolveFirewallEntries dns rest
    let (tr0, ds0) :=
      if e.domain = "" then ([], [])
      else
        match (dns e.domain).addrs with
        | Except.error _ => ([e.domain], [])
        | Except.ok ips =>
          let (bs4, bs6) := classifyIPs ips
          ([e.domain], [{ v4 := bs4, v6 := bs6, ports := defaultedPorts e.ports }])
    let cs0 := if e.cidr = "" then [] else [e]
    (tr0 ++ tr, ds0 ++ ds, cs0 ++ cs)

/-! ## Firewall rendering (writeRestoreRules, src/cmd/configcmd.go)

The Go function appends line chunks to a strings.Builder; every WriteString
call writes exactly one newline-terminated line, so the builder is modelled
as the list of chunks written, and the rendered file is their
concatenation. -/

/-- One WriteString call on the builder. -/
def wsb (b : List String) (s : String) : List String := b ++ [s]

/-- writeRestoreRules: base chain declarations, the four fixed accept
rules, per-address per-port domain rules, CIDR rules, the family-specific
reject, and COMMIT. -/
def writeRestoreRules (b : List String) (domains : List resolvedEntry)
    (cidrs : List FirewallEntry) (isV6 : Bool) : List String :=
  let b := wsb b "*filter\n"
  let b := wsb b ":INPUT ACCEPT [0:0]\n"
  let b := wsb b ":FORWARD ACCEPT [0:0]\n"
  let b := wsb b ":OUTPUT ACCEPT [0:0]\n"
  let b := wsb b "-A OUTPUT -m conntrack --ctstate ESTABLISHED,RELATED -j ACCEPT\n"
  let b := wsb b "-A OUTPUT -o lo -j ACCEPT\n"
  let b := wsb b "-A OUTPUT -p udp --dport 53 -j ACCEPT\n"
  let b := wsb b "-A OUTPUT -p tcp --dport 53 -j ACCEPT\n"
  let mask := if isV6 then "/128" else "/32"
  let b := domains.foldl
    (fun b re =>
      (if isV6 then re.v6 else re.v4).foldl
        (fun b ip =>
          re.ports.foldl
            (fun b port =>
              wsb b ("-A OUTPUT -d " ++ ip ++ mask ++ " -p tcp --dport " ++
                toString port ++ " -j ACCEPT\n"))
            b)
        b)
    b
  let b := cidrs.foldl
    (fun b e =>
      if e.ports = [] then
        wsb b ("-A OUTPUT -d " ++ e.cidr ++ " -j ACCEPT\n")
      else
        e.ports.foldl
          (fun b p =>
            wsb b ("-A OUTPUT -d " ++ e.cidr ++ " -p tcp --dport " ++
              toString p ++ " -j ACCEPT\n"))
          b)
    b
  let reject := if isV6 then "icmp6-port-unreachable" else "icmp-port-unreachable"
  let b := wsb b ("-A OUTPUT -j REJECT --reject-with " ++ reject ++ "\n")
  wsb b "COMMIT\n"

/-- buildFirewallRules: render both families from pre-resolved entries. -/
def buildFirewallRules (domains : List resolvedEntry) (cidrs : List FirewallEntry) :
    String × String :=
  (String.join (writeRestoreRules [] domains cidrs false),
   String.join (writeRestoreRules [] domains cidrs true))

/-! ## Fingerprint hash input (src/cmd/sync.go 202-217, configcmd.go 258-271)

SyncContainer feeds sha256 with, in order: each item's bytes then
destination, the digest of firewallConfigHash, and each hook's cmd, name,
and a "root" marker when privileged.  The functions below give the byte
streams written into the hashes; SHA-256 itself stays abstract and only
its determinism (equal input, equal digest) is used in the theorems. -/

/-- Bytes a single sync item contributes: data then destination. -/
def itemHashInput (i : SyncItem) : List Nat :=
  i.data ++ strBytes i.dest

/-- firewallConfigHash input: domain, cidr, then each port in decimal. -/
def firewallConfigHashInput (cfg : SandboxConfig) : List Nat :=
  cfg.firewall.flatMap
    (fun e => strBytes e.domain ++ strBytes e.cidr ++
      e.ports.flatMap (fun p => strBytes (toString p)))

/-- Bytes one hook contributes: cmd, name, and "root" if privileged. -/
def hookHashInput (h : OnSyncHook) : List Nat :=
  strBytes h.cmd ++ strBytes h.name ++ (if h.root then strBytes "root" else [])

/-- The full stream hashed by SyncContainer.  Equal streams give equal
fingerprints (SHA-256 is a function); the inner firewall digest is
represented by its own input stream, which preserves every equality the
real digest satisfies. -/
def syncHashInput (items : List SyncItem) (cfg : SandboxConfig) : List Nat :=
  items.flatMap itemHashInput ++ firewallConfigHashInput cfg ++
    cfg.onSync.flatMap hookHashInput

/-- The container state a manifest produces at one destination: last write
wins because items are pushed in order, and each push sets content, mode
and owner (docker cp, chmod, chown in syncItems). -/
def containerState (items : List SyncItem) : String → Option (List Nat × String × String) :=
  items.foldl
    (fun st i => fun d => if d = i.dest then some (i.data, i.mode, i.owner) else st d)
    (fun _ => none)

/-! ## Config store (src/cmd/config.go)

File contents are abstracted one level above YAML: a present document
either unmarshals to a SandboxConfig or is malformed.  os.ReadFile may
also fail for a reason other than non-existence (permissions, I/O), which
parseConfigFile propagates as an error. -/

/-- Result of reading one config path. -/
inductive FileRead where
  | notExist
  | readErr (msg : String)
  | content (doc : Option SandboxConfig)
deriving Repr

/-- validateFirewallEntry: a valid entry has exactly one of domain, cidr. -/
def validateFirewallEntry (e : FirewallEntry) : Bool :=
  ¬ ((e.domain ≠ "") = (e.cidr ≠ ""))

/-- Warning printed for an entry failing validation. -/
def firewallEntryWarning (e : FirewallEntry) : String :=
  if e.domain ≠ "" then "warning: firewall entry has both domain and cidr, skipping"
  else "warning: firewall entry has neither domain nor cidr, skipping"

/-- parseConfigFile: a missing file is (nil, nil); a read error is an
error; malformed YAML warns and yields an empty config; otherwise the
firewall allow list is filtered by validity, warning per dropped entry.
Returns (warnings, result); the inner Option mirrors the nil config
pointer for a missing file. -/
def parseConfigFile (fileAt : String → FileRead) (path : String) :
    List String × Except String (Option SandboxConfig) :=
  match fileAt path with
  | FileRead.notExist => ([], Except.ok none)
  | FileRead.readErr msg => ([], Except.error msg)
  | FileRead.content none =>
    (["warning: failed to parse " ++ path],
     Except.ok (some { sync := [], env := [], firewall := [], onSync := [] }))
  | FileRead.content (some cfg) =>
    ((cfg.firewall.filter (fun e => ¬ validateFirewallEntry e)).map firewallEntryWarning,
     Except.ok (some { cfg with firewall := cfg.firewall.filter validateFirewallEntry }))

/-- Go map insert on an association list: replace the value at an existing
key, else append the new binding. -/
def envInsert {α : Type} (m : List (String × α)) (k : String) (v : α) : List (String × α) :=
  if (envLookup m k).isSome then m.map (fun e => if e.1 = k then (k, v) else e)
  else m ++ [(k, v)]

/-- Insert every binding of a list, left to right. -/
def envInsertAll {α : Type} (m : List (String × α)) (l : List (String × α)) :
    List (String × α) :=
  l.foldl (fun m e => envInsert m e.1 e.2) m

/-- Loop body of the sync-rule merge: record the destination on first
sight, then overwrite the destMap entry. -/
def syncMergeStep (st : List String × List (String × SyncRule)) (r : SyncRule) :
    List String × List (String × SyncRule) :=
  let ord := if (envLookup st.2 r.dest).isSome then st.1 else st.1 ++ [r.dest]
  (ord, envInsert st.2 r.dest r)

/-- mergeConfig from src/cmd/config.go: key-wise env override, sync rules
keyed by destination in first-occurrence order, firewall lists
concatenated.  The merge in src/cmd/config.go builds no on_sync field
(zero value), which is mirrored here. -/
def mergeConfig (base override : SandboxConfig) : SandboxConfig :=
  let env := envInsertAll (envInsertAll [] base.env) override.env
  let st := override.sync.foldl syncMergeStep (base.sync.foldl syncMergeStep ([], []))
  { sync := st.1.filterMap (envLookup st.2)
    env := env
    firewall := base.firewall ++ override.firewall
    onSync := [] }

/-- loadConfig: read and parse the global then the workspace document, fail
when the home directory is unavailable, when either read fails, or when
both documents are absent; otherwise return the present one or the merge.
Returns (warnings, result). -/
def loadConfig (userHome : Option String) (fileAt : String → FileRead) (wsPath : String) :
    List String × Except String SandboxConfig :=
  match userHome with
  | none => ([], Except.error "get home directory: unavailable")
  | some home =>
    let globalPath := joinPath (joinPath (joinPath home ".ao") "sandbox") "config.yaml"
    let wsFile := joinPath (joinPath (joinPath wsPath ".ao") "sandbox") "config.yaml"
    match parseConfigFile fileAt globalPath with
    | (w1, Except.error e) => (w1, Except.error ("load global config: " ++ e))
    | (w1, Except.ok globalCfg) =>
      match parseConfigFile fileAt wsFile with
      | (w2, Except.error e) => (w1 ++ w2, Except.error ("load workspace config: " ++ e))
      | (w2, Except.ok wsCfg) =>
        match globalCfg, wsCfg with
        | none, none => (w1 ++ w2, Except.error "no sandbox config found")
        | none, some ws => (w1 ++ w2, Except.ok ws)
        | some g, none => (w1 ++ w2, Except.ok g)
        | some g, some ws => (w1 ++ w2, Except.ok (mergeConfig g ws))

/-- Destinations in first-occurrence order, given an already-seen set
(reference function for the merge characterization: emit each destination
the first time it appears). -/
def dedupFirstFrom (seen : List String) : List String → List String
  | [] => []
  | d :: rest =>
    if d ∈ seen then dedupFirstFrom seen rest
    else d :: dedupFirstFrom (d :: seen) rest

/-- The last rule carrying a given destination (reference function: the
rule that wins the merge for that destination). -/
def lastRuleFor (rules : List SyncRule) (d : String) : Option SyncRule :=
  rules.reverse.find? (fun r => r.dest = d)

/-! ## Manifest builder (buildSyncManifest, src/cmd/sync.go 75-187)

The host filesystem, glob expansion, host environment and the embedded
assets are supplied by a world record.  The builder returns the warnings
it prints alongside its result. -/

/-- The host-side inputs of one manifest build. -/
structure HostWorld where
  userHome : Option String
  entrypointScript : List Nat
  firewallScript : List Nat
  sandboxHome : Option (List (String × Except String (List Nat)))
  glob : String → Except String (List String)
  readFile : String → Except String (List Nat)
  getenv : String → Option String

/-- %q on a plain path (no escaping needed at these call sites). -/
def quoteStr (s : String) : String := "\"" ++ s ++ "\""

/-- The home-directory walk: each regular file under the sandbox home
becomes an item under /home/agent/, files under bin/ executable; the
first read failure aborts the walk with its error. -/
def walkHomeItems : List (String × Except String (List Nat)) → Except String (List SyncItem)
  | [] => Except.ok []
  | (rel, res) :: rest =>
    match res with
    | Except.error e => Except.error e
    | Except.ok data =>
      match walkHomeItems rest with
      | Except.error e => Except.error e
      | Except.ok items =>
        Except.ok
          ({ data := data, dest := "/home/agent/" ++ rel
             mode := if strOpens "bin/" rel then "0755" else "0644"
             owner := "agent:agent" } :: items)

/-- One explicit sync rule: apply defaults, tilde-expand, glob (an empty
result falls back to the literal path), read each match — a failed read
warns and skips that file — and place multi-match files under the
destination by base name.  A glob error aborts. -/
def ruleItems (w : HostWorld) (rule : SyncRule) : List String × Except String (List SyncItem) :=
  let mode := if rule.mode = "" then "0644" else rule.mode
  let owner := if rule.owner = "" then "agent:agent" else rule.owner
  let src := expandTilde w.userHome rule.src
  let dest := expandContainerTilde rule.dest
  match w.glob src with
  | Except.error e => ([], Except.error ("glob " ++ quoteStr rule.src ++ ": " ++ e))
  | Except.ok ms =>
    let ma := if ms = [] then [src] else ms
    let acc := ma.foldl
      (fun (acc : List String × List SyncItem) m =>
        match w.readFile m with
        | Except.error e => (acc.1 ++ ["warning: cannot read " ++ m ++ ": " ++ e], acc.2)
        | Except.ok data =>
          let d := if ma.length > 1 then joinPath dest (baseName m) else dest
          (acc.1, acc.2 ++ [{ data := data, dest := d, mode := mode, owner := owner }]))
      ([], [])
    (acc.1, Except.ok acc.2)

/-- All explicit rules in order; the first glob error aborts the build. -/
def rulesItems (w : HostWorld) : List SyncRule → List String × Except String (List SyncItem)
  | [] => ([], Except.ok [])
  | r :: rest =>
    match ruleItems w r with
    | (ws, Except.error e) => (ws, Except.error e)
    | (ws, Except.ok items) =>
      match rulesItems w rest with
      | (ws2, Except.error e) => (ws ++ ws2, Except.error e)
      | (ws2, Except.ok items2) => (ws ++ ws2, Except.ok (items ++ items2))

/-- buildSyncManifest from src/cmd/sync.go: embedded entrypoint, embedded
firewall script, generated env file, home-directory files, explicit rules.
The walk is skipped entirely when the home directory is unavailable or the
sandbox home does not exist; a walk error or glob error aborts the whole
build. -/
def buildSyncManifest (w : HostWorld) (cfg : SandboxConfig) :
    List String × Except String (List SyncItem) :=
  let builtin : List SyncItem :=
    [{ data := w.entrypointScript, dest := "/opt/entrypoint.sh", mode := "0755", owner := "root:root" },
     { data := w.firewallScript, dest := "/opt/init-firewall.sh", mode := "0755", owner := "root:root" }]
  let envItems : List SyncItem :=
    match generateEnvFile w.getenv cfg.env with
    | none => []
    | some d => [{ data := d, dest := "/home/agent/.sandbox-env", mode := "0644", owner := "agent:agent" }]
  let walk : Except String (List SyncItem) :=
    match w.userHome with
    | none => Except.ok []
    | some _ =>
      match w.sandboxHome with
      | none => Except.ok []
      | some entries => walkHomeItems entries
  match walk with
  | Except.error e => ([], Except.error ("walk home dir: " ++ e))
  | Except.ok homeItems =>
    match rulesItems w cfg.sync with
    | (ws, Except.error e) => (ws, Except.error e)
    | (ws, Except.ok ruleIts) => (ws, Except.ok (builtin ++ envItems ++ homeItems ++ ruleIts))

/-! ## Sync orchestrator (SyncContainer, src/cmd/sync.go 189-311)

Container interactions are supplied by a world record; the orchestrator
returns the trace of container-mutating and network operations (file
pushes, DNS lookups, firewall application, hook runs, fingerprint write)
together with its result.  The fingerprint reads (stored hash, previous
rule text) mutate nothing and are not traced.  DNS resolution runs in a
background goroutine overlapped with the file pushes; the trace lists its
lookups at the point the goroutine is started. -/

/-- Outcome of executing one hook inside the container: the error text of
a non-zero exit (none on success) and the combined output. -/
structure HookRes where
  errText : Option String
  output : String

/-- The container-side inputs of one sync. -/
structure ContainerWorld where
  storedHash : Except String String
  oldV4 : String
  oldV6 : String
  pushErr : SyncItem → Option String
  applyErr : Option String
  hookRes : Nat → HookRes
  writeHashErr : Option String

/-- Traced operations. -/
inductive SyncOp where
  | pushItem (dest : String)
  | resolveLookup (domain : String)
  | runHook (idx : Nat) (label user : String)
  | applyFirewall
  | writeHash (h : String)
deriving Repr, DecidableEq

/-- syncItems: push each item in order, stopping at the first failure. -/
def syncItemsModel (push : SyncItem → Option String) : List SyncItem → List SyncOp × Option String
  | [] => ([], none)
  | i :: rest =>
    match push i with
    | some e => ([SyncOp.pushItem i.dest], some e)
    | none =>
      let (ops, err) := syncItemsModel push rest
      (SyncOp.pushItem i.dest :: ops, err)

/-- Hook label: the name, defaulting to the command text. -/
def hookLabel (h : OnSyncHook) : String :=
  if h.name = "" then h.cmd else h.name

/-- Execution identity: root when privileged, agent otherwise. -/
def hookUser (h : OnSyncHook) : String :=
  if h.root then "root" else "agent"

/-- The error a failing hook surfaces: label, exec error, combined output. -/
def hookErrorMsg (label errText output : String) : String :=
  "on_sync hook \"" ++ label ++ "\" failed: " ++ errText ++ "\n" ++ output

/-- runOnSyncHooks from src/cmd/sync.go: strictly sequential; the first
failure aborts the remaining hooks and surfaces label and output. -/
def runOnSyncHooks (res : Nat → HookRes) : Nat → List OnSyncHook → List SyncOp × Option String
  | _, [] => ([], none)
  | i, h :: rest =>
    let r := res i
    match r.errText with
    | some e =>
      ([SyncOp.runHook i (hookLabel h) (hookUser h)],
       some (hookErrorMsg (hookLabel h) e r.output))
    | none =>
      let (ops, err) := runOnSyncHooks res (i + 1) rest
      (SyncOp.runHook i (hookLabel h) (hookUser h) :: ops, err)

/-- The skip test: without force, compare the trimmed stored fingerprint
against the fresh one; a read error means no skip. -/
def skipDecision (stored : Except String String) (force : Bool) (hash : String) : Bool :=
  !force &&
    (match stored with
     | Except.ok out => goTrimSpace out = hash
     | Except.error _ => false)

/-- SyncContainer from src/cmd/sync.go: build the manifest, compute the
fingerprint, skip when unchanged, otherwise resolve DNS concurrently with
the pushes, push the rendered firewall rules, re-apply the firewall only
when the rule text changed (an apply failure is a warning, not an error),
run the hooks, and commit the fingerprint last. -/
def SyncContainer (hashFn : List Nat → String) (dns : String → DNSRecord)
    (hw : HostWorld) (cw : ContainerWorld) (cfg : SandboxConfig) (force : Bool) :
    List SyncOp × Except String Unit :=
  match (buildSyncManifest hw cfg).2 with
  | Except.error e => ([], Except.error ("build sync manifest: " ++ e))
  | Except.ok items =>
    let hash := hashFn (syncHashInput items cfg)
    if skipDecision cw.storedHash force hash then ([], Except.ok ())
    else
      let r := resolveFirewallEntries dns cfg.firewall
      let resolveOps := r.1.map SyncOp.resolveLookup
      match syncItemsModel cw.pushErr items with
      | (pushOps, some e) => (resolveOps ++ pushOps, Except.error e)
      | (pushOps, none) =>
        let rules := buildFirewallRules r.2.1 r.2.2
        let fwItems : List SyncItem :=
          [{ data := strBytes rules.1, dest := "/opt/sandbox-firewall-rules.sh"
             mode := "0755", owner := "root:root" },
           { data := strBytes rules.2, dest := "/opt/sandbox-firewall-rules6.sh"
             mode := "0755", owner := "root:root" }]
        match syncItemsModel cw.pushErr fwItems with
        | (fwOps, some e) => (resolveOps ++ pushOps ++ fwOps, Except.error e)
        | (fwOps, none) =>
          let applyOps :=
            if cw.oldV4 ≠ rules.1 ∨ cw.oldV6 ≠ rules.2 then [SyncOp.applyFirewall] else []
          let hooks := runOnSyncHooks cw.hookRes 0 cfg.onSync
          let pre := resolveOps ++ pushOps ++ fwOps ++ applyOps ++ hooks.1
          match hooks.2 with
          | some e => (pre, Except.error e)
          | none =>
            match cw.writeHashErr with
            | some e => (pre ++ [SyncOp.writeHash hash], Except.error ("write sync hash: " ++ e))
            | none => (pre ++ [SyncOp.writeHash hash], Except.ok ())

/-! ## Generic fold lemmas -/

/-- A left fold whose step appends a chunk per element is the flatMap of
the chunks. -/
theorem foldl_eq_flatMap {β : Type} (f : β → List String)
    (step : List String → β → List String)
    (hstep : ∀ b x, step b x = b ++ f x) :
    ∀ (l : List β) (b : List String), l.foldl step b = b ++ l.flatMap f := by
  intro l
  induction l with
  | nil => intro b; simp
  | cons x xs ih =>
    intro b
    simp only [List.foldl_cons, List.flatMap_cons, hstep, ih, List.append_assoc]

/-- flatMap of singletons is map. -/
theorem flatMap_singleton_eq_map {β : Type} (g : β → String) (l : List β) :
    l.flatMap (fun x => [g x]) = l.map g := by
  induction l with
  | nil => rfl
  | cons x xs ih => simp [List.flatMap_cons, ih]

/-- The fixed opening chunks of every rendered rule set. -/
def restoreHeader : List String :=
  ["*filter\n", ":INPUT ACCEPT [0:0]\n", ":FORWARD ACCEPT [0:0]\n", ":OUTPUT ACCEPT [0:0]\n",
   "-A OUTPUT -m conntrack --ctstate ESTABLISHED,RELATED -j ACCEPT\n",
   "-A OUTPUT -o lo -j ACCEPT\n",
   "-A OUTPUT -p udp --dport 53 -j ACCEPT\n",
   "-A OUTPUT -p tcp --dport 53 -j ACCEPT\n"]

/-- The accept lines of one resolved entry in one family: one line per
matching-family address per configured port, /32 or /128 scoped. -/
def domainLines (isV6 : Bool) (re : resolvedEntry) : List String :=
  (if isV6 then re.v6 else re.v4).flatMap
    (fun ip => re.ports.map
      (fun port => "-A OUTPUT -d " ++ ip ++ (if isV6 then "/128" else "/32") ++
        " -p tcp --dport " ++ toString port ++ " -j ACCEPT\n"))

/-- The accept lines of one CIDR entry: unrestricted without ports, one
line per port otherwise. -/
def cidrLines (e : FirewallEntry) : List String :=
  if e.ports = [] then ["-A OUTPUT -d " ++ e.cidr ++ " -j ACCEPT\n"]
  else e.ports.map
    (fun p => "-A OUTPUT -d " ++ e.cidr ++ " -p tcp --dport " ++ toString p ++ " -j ACCEPT\n")

/-- The closing chunks: family-appropriate reject, then COMMIT. -/
def restoreFooter (isV6 : Bool) : List String :=
  ["-A OUTPUT -j REJECT --reject-with " ++
    (if isV6 then "icmp6-port-unreachable" else "icmp-port-unreachable") ++ "\n",
   "COMMIT\n"]

theorem writeRestoreRules_decomposition (domains : List resolvedEntry)
    (cidrs : List FirewallEntry) (isV6 : Bool) :
    writeRestoreRules [] domains cidrs isV6 =
      restoreHeader ++ domains.flatMap (domainLines isV6) ++ cidrs.flatMap cidrLines ++
        restoreFooter isV6 := by
  have hdom : ∀ (b : List String),
      domains.foldl
        (fun b re =>
          (if isV6 then re.v6 else re.v4).foldl
            (fun b ip =>
              re.ports.foldl
                (fun b port =>
                  b ++ ["-A OUTPUT -d " ++ ip ++ (if isV6 then "/128" else "/32") ++
                    " -p tcp --dport " ++ toString port ++ " -j ACCEPT\n"])
                b)
            b)
        b = b ++ domains.flatMap (domainLines isV6) := by
    intro b
    refine foldl_eq_flatMap _ _ ?_ domains b
    intro b re
    unfold domainLines
    refine foldl_eq_flatMap _ _ ?_ _ b
    intro b ip
    rw [← flatMap_singleton_eq_map]
    refine foldl_eq_flatMap _ _ ?_ _ b
    intro b port
    rfl
  have hcidr : ∀ (b : List String),
      cidrs.foldl
        (fun b e =>
          if e.ports = [] then
            b ++ ["-A OUTPUT -d " ++ e.cidr ++ " -j ACCEPT\n"]
          else
            e.ports.foldl
              (fun b p =>
                b ++ ["-A OUTPUT -d " ++ e.cidr ++ " -p tcp --dport " ++
                  toString p ++ " -j ACCEPT\n"])
              b)
        b = b ++ cidrs.flatMap cidrLines := by
    intro b
    refine foldl_eq_flatMap _ _ ?_ cidrs b
    intro b e
    unfold cidrLines
    by_cases h : e.ports = []
    · simp [h]
    · simp only [h, if_false]
      rw [← flatMap_singleton_eq_map]
      refine foldl_eq_flatMap _ _ ?_ _ b
      intro b p
      rfl
  show writeRestoreRules [] domains cidrs isV6 = _
  unfold writeRestoreRules
  simp only [wsb, List.nil_append]
  rw [hdom, hcidr]
  simp [restoreHeader, restoreFooter, List.append_assoc]

/-- C9: every rendered rule-set consists of the default-accept chain
declarations, then in order the established/related, loopback, DNS-UDP-53
and DNS-TCP-53 accepts, then one accept per resolved address (/32 in the
IPv4 set, /128 in the IPv6 set) per configured port, then the CIDR rules,
and ends with the family-appropriate port-unreachable REJECT (followed
only by the COMMIT directive).  In particular a resolved entry with single
IPv4 address 203.0.113.5 and default ports renders exactly the accept
lines for 203.0.113.5/32 on ports 80 and 443 in the IPv4 set, and the
IPv6 set contains no address line at all. -/
theorem C9_restore_rules_order :
    (∀ (domains : List resolvedEntry) (cidrs : List FirewallEntry) (isV6 : Bool),
      writeRestoreRules [] domains cidrs isV6 =
        restoreHeader ++ domains.flatMap (domainLines isV6) ++ cidrs.flatMap cidrLines ++
          restoreFooter isV6) ∧
    writeRestoreRules [] [{ v4 := ["203.0.113.5"], v6 := [], ports := [80, 443] }] [] false =
      restoreHeader ++
        ["-A OUTPUT -d 203.0.113.5/32 -p tcp --dport 80 -j ACCEPT\n",
         "-A OUTPUT -d 203.0.113.5/32 -p tcp --dport 443 -j ACCEPT\n"] ++
        restoreFooter false ∧
    writeRestoreRules [] [{ v4 := ["203.0.113.5"], v6 := [], ports := [80, 443] }] [] true =
      restoreHeader ++ restoreFooter true := by
  refine ⟨writeRestoreRules_decomposition, ?_, ?_⟩
  · rw [writeRestoreRules_decomposition]
    rfl
  · rw [writeRestoreRules_decomposition]
    rfl

/-! ## C4: CNAME handling in the resolver -/

/-- A resolver world where one allow-listed domain is a CNAME alias whose
target owns an extra address. -/
def dnsCnameWorld : String → DNSRecord := fun d =>
  if d = "www.example.com" then
    { addrs := Except.ok ["203.0.113.7"], cname := some "cdn.example.net" }
  else if d = "cdn.example.net" then
    { addrs := Except.ok ["203.0.113.99"], cname := none }
  else { addrs := Except.error "no such host", cname := none }

/-- The allow list with just that aliased domain. -/
def cnameEntries : List FirewallEntry :=
  [{ domain := "www.example.com", cidr := "", ports := [] }]

/-- C4 counterexample: a domain entry that resolves via a CNAME triggers no
additional lookup of the CNAME target, and the target's addresses are not
merged into the entry: the lookup trace holds exactly the entry's own
domain, and the resolved entry holds exactly the addresses LookupHost
returned for it. -/
theorem C4_counterexample :
    (dnsCnameWorld "www.example.com").cname = some "cdn.example.net" ∧
    (resolveFirewallEntries dnsCnameWorld cnameEntries).1 = ["www.example.com"] ∧
    ¬ "cdn.example.net" ∈ (resolveFirewallEntries dnsCnameWorld cnameEntries).1 ∧
    (resolveFirewallEntries dnsCnameWorld cnameEntries).2.1 =
      [{ v4 := ["203.0.113.7"], v6 := [], ports := [80, 443] }] := by
  refine ⟨rfl, rfl, ?_, rfl⟩
  decide

/-- C4 amended: the resolver performs exactly one host lookup per domain
entry — the system resolver already returns the terminal addresses of any
CNAME chain — and each resolved entry holds exactly the classification of
that single lookup's answer; no separate CNAME-target lookup and no merge
step exist. -/
theorem C4_amended_single_lookup (dns : String → DNSRecord)
    (entries : List FirewallEntry) :
    (resolveFirewallEntries dns entries).1 =
      (entries.filter (fun e => e.domain ≠ "")).map (fun e => e.domain) ∧
    (resolveFirewallEntries dns entries).2.1 =
      (entries.filter (fun e => e.domain ≠ "")).filterMap
        (fun e =>
          match (dns e.domain).addrs with
          | Except.error _ => none
          | Except.ok ips =>
            some { v4 := (classifyIPs ips).1, v6 := (classifyIPs ips).2
                   ports := defaultedPorts e.ports }) := by
  induction entries with
  | nil => exact ⟨rfl, rfl⟩
  | cons e rest ih =>
    unfold resolveFirewallEntries
    by_cases hd : e.domain = ""
    · simp [hd, ih.1, ih.2]
    · rcases ha : (dns e.domain).addrs with err | ips
      · simp [hd, ha, ih.1, ih.2]
      · simp [hd, ha, ih.1, ih.2, classifyIPs]

/-! ## C5: address classification -/

/-- An address string kept in the IPv4 bucket: parseable, not unspecified,
4-in-6 mapped. -/
def keepV4 (ip : String) : Bool :=
  match parseIP ip with
  | some p => !goIsUnspecified p && (goTo4 p).isSome
  | none => false

/-- An address string kept in the IPv6 bucket. -/
def keepV6 (ip : String) : Bool :=
  match parseIP ip with
  | some p => !goIsUnspecified p && !(goTo4 p).isSome
  | none => false

/-- The classification loop is the pair of filters by the two (mutually
exclusive) bucket predicates. -/
theorem classifyIPs_eq_filter (ips : List String) :
    classifyIPs ips = (ips.filter keepV4, ips.filter keepV6) := by
  have aux : ∀ (l : List String) (acc : List String × List String),
      l.foldl
        (fun acc ip =>
          match parseIP ip with
          | none => acc
          | some parsed =>
            if goIsUnspecified parsed then acc
            else if (goTo4 parsed).isSome then (acc.1 ++ [ip], acc.2)
            else (acc.1, acc.2 ++ [ip]))
        acc = (acc.1 ++ l.filter keepV4, acc.2 ++ l.filter keepV6) := by
    intro l
    induction l with
    | nil => intro acc; simp
    | cons ip rest ih =>
      intro acc
      simp only [List.foldl_cons, List.filter_cons]
      rcases hp : parseIP ip with _ | p
      · simp [keepV4, keepV6, hp, ih]
      · by_cases hu : goIsUnspecified p = true
        · simp [keepV4, keepV6, hp, hu, ih]
        · by_cases h4 : (goTo4 p).isSome
          · simp [keepV4, keepV6, hp, hu, h4, ih]
          · simp [keepV4, keepV6, hp, hu, h4, ih]
  unfold classifyIPs
  simpa using aux ips ([], [])

/-- A resolver world returning a link-local IPv4 address. -/
def dnsLinkLocalWorld : String → DNSRecord := fun d =>
  if d = "lla.example.com" then
    { addrs := Except.ok ["169.254.1.1"], cname := none }
  else { addrs := Except.error "no such host", cname := none }

/-- C5 counterexample: the resolver does not exclude link-local addresses.
169.254.1.1 is link-local, yet it is placed in the resolved entry's IPv4
bucket. -/
theorem C5_counterexample :
    parseIP "169.254.1.1" = some (v4Mapped [169, 254, 1, 1]) ∧
    goIsLinkLocalUnicast (v4Mapped [169, 254, 1, 1]) = true ∧
    (resolveFirewallEntries dnsLinkLocalWorld
        [{ domain := "lla.example.com", cidr := "", ports := [] }]).2.1 =
      [{ v4 := ["169.254.1.1"], v6 := [], ports := [80, 443] }] := by
  refine ⟨?_, ?_, ?_⟩ <;> rfl

/-- C5 amended: every parseable, non-unspecified address of a lookup
answer lands in exactly one of the IPv4/IPv6 buckets (by To4); every
unspecified address and every unparseable string is excluded from both.
Link-local addresses are not excluded: they are classified like any
other address. -/
theorem C5_amended_classification (ips : List String) (ip : String) (p : List Nat)
    (hmem : ip ∈ ips) (hp : parseIP ip = some p) :
    (goIsUnspecified p = false →
      (ip ∈ (classifyIPs ips).1 ↔ (goTo4 p).isSome = true) ∧
      (ip ∈ (classifyIPs ips).2 ↔ (goTo4 p).isSome = false)) ∧
    (goIsUnspecified p = true →
      ¬ ip ∈ (classifyIPs ips).1 ∧ ¬ ip ∈ (classifyIPs ips).2) ∧
    (∀ q, parseIP q = none →
      ¬ q ∈ (classifyIPs ips).1 ∧ ¬ q ∈ (classifyIPs ips).2) := by
  rw [classifyIPs_eq_filter]
  refine ⟨?_, ?_, ?_⟩
  · intro hu
    constructor
    · simp only [List.mem_filter]
      constructor
      · rintro ⟨-, hk⟩
        simp only [keepV4, hp] at hk
        exact (Bool.and_eq_true _ _ ▸ hk).2
      · intro h4
        exact ⟨hmem, by simp [keepV4, hp, hu, h4]⟩
    · simp only [List.mem_filter]
      constructor
      · rintro ⟨-, hk⟩
        simp only [keepV6, hp] at hk
        rcases Bool.and_eq_true _ _ ▸ hk with ⟨-, h6⟩
        simpa using h6
      · intro h4
        exact ⟨hmem, by simp [keepV6, hp, hu, h4]⟩
  · intro hu
    constructor
    · simp only [List.mem_filter]
      rintro ⟨-, hk⟩
      simp [keepV4, hp, hu] at hk
    · simp only [List.mem_filter]
      rintro ⟨-, hk⟩
      simp [keepV6, hp, hu] at hk
  · intro q hq
    constructor
    · simp only [List.mem_filter]
      rintro ⟨-, hk⟩
      simp [keepV4, hq] at hk
    · simp only [List.mem_filter]
      rintro ⟨-, hk⟩
      simp [keepV6, hq] at hk

/-- C5 amended witness at a concrete answer holding one IPv4, one IPv6,
one unspecified and one unparseable string. -/
theorem C5_amended_classification_witness :
    "1.2.3.4" ∈ ["1.2.3.4", "2001:db8::1", "0.0.0.0", "garbage"] ∧
    parseIP "1.2.3.4" = some (v4Mapped [1, 2, 3, 4]) ∧
    goIsUnspecified (v4Mapped [1, 2, 3, 4]) = false ∧
    ("1.2.3.4" ∈ (classifyIPs ["1.2.3.4", "2001:db8::1", "0.0.0.0", "garbage"]).1 ↔
      (goTo4 (v4Mapped [1, 2, 3, 4])).isSome = true) := by
  refine ⟨by decide, rfl, rfl, ?_⟩
  exact ((C5_amended_classification ["1.2.3.4", "2001:db8::1", "0.0.0.0", "garbage"]
    "1.2.3.4" (v4Mapped [1, 2, 3, 4]) (by decide) (by decide)).1 (by decide)).1

/-! ## C10: host-referencing env values -/

/-- Under unique keys, membership determines the map lookup. -/
theorem envLookup_of_nodup {α : Type} (env : List (String × α)) (k : String) (v : α)
    (hnd : (env.map (fun e => e.1)).Nodup) (hmem : (k, v) ∈ env) :
    envLookup env k = some v := by
  induction env with
  | nil => cases hmem
  | cons e rest ih =>
    rw [List.map_cons, List.nodup_cons] at hnd
    rcases List.mem_cons.1 hmem with h | h
    · subst h
      simp [envLookup]
    · have hk : ¬ e.1 = k := fun hek =>
        hnd.1 (hek ▸ List.mem_map.2 ⟨(k, v), h, rfl⟩)
      simp [envLookup, hk, ih hnd.2 h]

/-- Filtering out one key leaves every other lookup unchanged. -/
theorem envLookup_filter_ne (env : List (String × String)) (k q : String) (hq : ¬ q = k) :
    envLookup (env.filter (fun e => ¬ (e.1 = k))) q = envLookup env q := by
  induction env with
  | nil => rfl
  | cons e rest ih =>
    simp only [decide_not] at ih
    by_cases hek : e.1 = k
    · have hkq : ¬ k = q := fun h => hq h.symm
      simp [List.filter_cons, hek, envLookup, hkq, ih]
    · simp [List.filter_cons, hek, envLookup, ih]

/-- The filtered-out key itself no longer resolves. -/
theorem envLookup_filter_self (env : List (String × String)) (k : String) :
    envLookup (env.filter (fun e => ¬ (e.1 = k))) k = none := by
  induction env with
  | nil => rfl
  | cons e rest ih =>
    simp only [decide_not] at ih
    by_cases hek : e.1 = k <;> simp [List.filter_cons, hek, envLookup, ih]

/-- Keys of the filtered map are the filtered keys. -/
theorem map_fst_filter_ne (env : List (String × String)) (k : String) :
    (env.filter (fun e => ¬ (e.1 = k))).map (fun e => e.1) =
      (env.map (fun e => e.1)).filter (fun x => ¬ (x = k)) := by
  induction env with
  | nil => rfl
  | cons e rest ih =>
    simp only [decide_not] at ih
    by_cases hek : e.1 = k <;> simp [List.filter_cons, hek, ih]

/-- Sorting commutes with filtering (sorted permutations are unique). -/
theorem sortStrings_filter (p : String → Bool) (l : List String) :
    sortStrings (l.filter p) = (sortStrings l).filter p := by
  apply List.eq_of_perm_of_sorted (r := fun a b : String => a ≤ b)
  · exact (List.perm_insertionSort _ _).trans ((List.perm_insertionSort _ l).symm.filter p)
  · exact List.sorted_insertionSort _ _
  · exact (List.sorted_insertionSort _ l).filter p

/-- Dropping elements on which the function vanishes does not change a
filterMap. -/
theorem filterMap_filter_of_none {α β : Type} (f : α → Option β) (p : α → Bool)
    (l : List α) (h : ∀ a ∈ l, p a = false → f a = none) :
    (l.filter p).filterMap f = l.filterMap f := by
  induction l with
  | nil => rfl
  | cons a rest ih =>
    have hrest : ∀ b ∈ rest, p b = false → f b = none := fun b hb => h b (List.mem_cons_of_mem _ hb)
    by_cases hp : p a = true
    · simp [List.filter_cons, hp, List.filterMap_cons, ih hrest]
    · have hpa : p a = false := by simpa using hp
      simp [List.filter_cons, hpa, List.filterMap_cons, h a (List.mem_cons_self _ _) hpa,
        ih hrest]

/-- If the entry for key k renders to nothing, the generated lines are the
same as those of the map without that entry. -/
theorem envFileLines_drop_key (g : String → Option String) (env : List (String × String))
    (k v : String) (hnd : (env.map (fun e => e.1)).Nodup) (hmem : (k, v) ∈ env)
    (hnone : envEntryLine g k v = none) :
    envFileLines g env = envFileLines g (env.filter (fun e => ¬ (e.1 = k))) := by
  unfold envFileLines
  rw [map_fst_filter_ne, sortStrings_filter]
  rw [filterMap_filter_of_none _ _ _ ?vanish]
  case vanish =>
    intro a _ hpa
    have ha : a = k := by simpa using hpa
    subst ha
    rw [envLookup_filter_self]
    rfl
  apply List.filterMap_congr
  intro x _
  by_cases hxk : x = k
  · subst hxk
    rw [envLookup_of_nodup env x v hnd hmem, envLookup_filter_self]
    simpa using hnone
  · rw [envLookup_filter_ne env k x hxk]

/-- Same fact lifted to the generated file bytes. -/
theorem generateEnvFile_drop_key (g : String → Option String) (env : List (String × String))
    (k v : String) (hnd : (env.map (fun e => e.1)).Nodup) (hmem : (k, v) ∈ env)
    (hnone : envEntryLine g k v = none) :
    generateEnvFile g env = generateEnvFile g (env.filter (fun e => ¬ (e.1 = k))) := by
  have hlines := envFileLines_drop_key g env k v hnd hmem hnone
  by_cases henv : env = []
  · subst henv
    rfl
  · by_cases hflt : env.filter (fun e => ¬ (e.1 = k)) = []
    · have h1 : envFileLines g env = [] := by
        rw [hlines, hflt]
        rfl
      simp only [decide_not] at hflt
      simp [generateEnvFile, henv, hflt, h1, String.join]
    · simp only [decide_not] at hflt hlines
      simp [generateEnvFile, henv, hflt, hlines]

/-- generateEnvFile sees the host environment only through Getenv. -/
theorem generateEnvFile_getenv_congr (g1 g2 : String → Option String)
    (h : ∀ x, goGetenv g1 x = goGetenv g2 x) (env : List (String × String)) :
    generateEnvFile g1 env = generateEnvFile g2 env := by
  have hline : ∀ k v, envEntryLine g1 k v = envEntryLine g2 k v := by
    intro k v
    unfold envEntryLine
    rw [h (strDrop v 1)]
  have hlines : envFileLines g1 env = envFileLines g2 env := by
    unfold envFileLines
    apply List.filterMap_congr
    intro x _
    cases envLookup env x <;> simp [hline]
  unfold generateEnvFile
  rw [hlines]

/-- C10: an env value with the `$` sentinel is omitted from the generated
file whenever the referenced host variable expands to the empty string via
Getenv — which happens both when it is unset and when it is set to the
empty string, two cases Getenv cannot distinguish — and the one-character
value `$` references the empty variable name, which is never set, so that
entry is omitted under every host environment.  Omission is stated as: the
generated file equals the one generated without that entry. -/
theorem C10_dollar_env_omission (g : String → Option String)
    (env : List (String × String)) (k v : String)
    (hnd : (env.map (fun e => e.1)).Nodup) (hmem : (k, v) ∈ env)
    (hpre : strOpens "$" v = true) :
    (goGetenv g (strDrop v 1) = "" →
      generateEnvFile g env = generateEnvFile g (env.filter (fun e => ¬ (e.1 = k)))) ∧
    (∀ g2, (∀ x, goGetenv g x = goGetenv g2 x) →
      generateEnvFile g env = generateEnvFile g2 env) ∧
    (v = "$" →
      generateEnvFile g env = generateEnvFile g (env.filter (fun e => ¬ (e.1 = k)))) := by
  refine ⟨?_, ?_, ?_⟩
  · intro hempty
    apply generateEnvFile_drop_key g env k v hnd hmem
    simp [envEntryLine, hpre, hempty]
  · intro g2 h
    exact generateEnvFile_getenv_congr g g2 h env
  · intro hv
    subst hv
    apply generateEnvFile_drop_key g env k "$" hnd hmem
    rfl

/-- C10 witness: a two-entry map where TOKEN references an unset host
variable; the file keeps only the literal entry, which is the same file
generated when the entry is absent. -/
theorem C10_dollar_env_omission_witness :
    ((([("FOO", "bar"), ("TOKEN", "$UNSET_VAR")] : List (String × String)).map
        (fun e => e.1)).Nodup ∧
      ("TOKEN", "$UNSET_VAR") ∈ [("FOO", "bar"), ("TOKEN", "$UNSET_VAR")] ∧
      strOpens "$" "$UNSET_VAR" = true ∧
      goGetenv (fun _ => none) (strDrop "$UNSET_VAR" 1) = "") ∧
    generateEnvFile (fun _ => none) [("FOO", "bar"), ("TOKEN", "$UNSET_VAR")] =
      generateEnvFile (fun _ => none)
        (([("FOO", "bar"), ("TOKEN", "$UNSET_VAR")] : List (String × String)).filter
          (fun e => ¬ (e.1 = "TOKEN"))) := by
  refine ⟨⟨by decide, by decide, by decide, by decide⟩, ?_⟩
  exact (C10_dollar_env_omission (fun _ => none) [("FOO", "bar"), ("TOKEN", "$UNSET_VAR")]
    "TOKEN" "$UNSET_VAR" (by decide) (by decide) (by decide)).1 (by decide)

/-! ## C3: skip behavior -/

/-- C3: when force is off and the stored fingerprint (trimmed) equals the
freshly computed one, SyncContainer performs no traced operation at all —
no file push, no DNS lookup, no firewall application, no hook run, no
fingerprint write — and returns success straight after the comparison. -/
theorem C3_skip_is_noop (hashFn : List Nat → String) (dns : String → DNSRecord)
    (hw : HostWorld) (cw : ContainerWorld) (cfg : SandboxConfig)
    (items : List SyncItem) (s : String)
    (hbuild : (buildSyncManifest hw cfg).2 = Except.ok items)
    (hstored : cw.storedHash = Except.ok s)
    (hmatch : goTrimSpace s = hashFn (syncHashInput items cfg)) :
    SyncContainer hashFn dns hw cw cfg false = ([], Except.ok ()) := by
  unfold SyncContainer
  rw [hbuild]
  have hskip : skipDecision cw.storedHash false (hashFn (syncHashInput items cfg)) = true := by
    simp [skipDecision, hstored, hmatch]
  simp [hskip]

/-- The empty configuration. -/
def emptyConfig : SandboxConfig :=
  { sync := [], env := [], firewall := [], onSync := [] }

/-- A minimal host world: no home directory, two one-byte embedded
assets, no glob matches, no readable files, empty host environment. -/
def hwMinimal : HostWorld :=
  { userHome := none, entrypointScript := [1], firewallScript := [2]
    sandboxHome := none, glob := fun _ => Except.ok []
    readFile := fun _ => Except.error "not found", getenv := fun _ => none }

/-- A container whose stored fingerprint (with a trailing newline, as
written by the echo in SyncContainer) matches the constant digest
function below. -/
def cwStored : ContainerWorld :=
  { storedHash := Except.ok "h\n", oldV4 := "", oldV6 := ""
    pushErr := fun _ => none, applyErr := none
    hookRes := fun _ => { errText := none, output := "" }, writeHashErr := none }

/-- A stand-in digest function (any function works: only determinism of
the real SHA-256 is used). -/
def constHash : List Nat → String := fun _ => "h"

/-- A resolver where every lookup fails. -/
def dnsNone : String → DNSRecord :=
  fun _ => { addrs := Except.error "lookup failed", cname := none }

/-- C3 witness: with the minimal world, the build succeeds, the stored
fingerprint matches after trimming, and the sync is a no-op. -/
theorem C3_skip_is_noop_witness :
    (buildSyncManifest hwMinimal emptyConfig).2 = Except.ok
      [{ data := [1], dest := "/opt/entrypoint.sh", mode := "0755", owner := "root:root" },
       { data := [2], dest := "/opt/init-firewall.sh", mode := "0755", owner := "root:root" }] ∧
    cwStored.storedHash = Except.ok "h\n" ∧
    goTrimSpace "h\n" = constHash (syncHashInput
      [{ data := [1], dest := "/opt/entrypoint.sh", mode := "0755", owner := "root:root" },
       { data := [2], dest := "/opt/init-firewall.sh", mode := "0755", owner := "root:root" }]
      emptyConfig) ∧
    SyncContainer constHash dnsNone hwMinimal cwStored emptyConfig false = ([], Except.ok ()) := by
  refine ⟨rfl, rfl, rfl, ?_⟩
  exact C3_skip_is_noop constHash dnsNone hwMinimal cwStored emptyConfig
    [{ data := [1], dest := "/opt/entrypoint.sh", mode := "0755", owner := "root:root" },
     { data := [2], dest := "/opt/init-firewall.sh", mode := "0755", owner := "root:root" }]
    "h\n" rfl rfl rfl

/-! ## C2: hook failure atomicity -/

/-- When no push fails, syncItems pushes every item in order. -/
theorem syncItemsModel_ok (push : SyncItem → Option String) (items : List SyncItem)
    (h : ∀ i ∈ items, push i = none) :
    syncItemsModel push items = (items.map (fun i => SyncOp.pushItem i.dest), none) := by
  induction items with
  | nil => rfl
  | cons i rest ih =>
    have hi := h i (List.mem_cons_self _ _)
    have hr := ih (fun j hj => h j (List.mem_cons_of_mem _ hj))
    simp [syncItemsModel, hi, hr]

/-- Membership in a conditional singleton. -/
theorem mem_ite_singleton {α : Type} (x a : α) (c : Prop) [Decidable c] :
    x ∈ (if c then [a] else []) ↔ (c ∧ x = a) := by
  by_cases hc : c <;> simp [hc]

/-- C2: with hooks [ok, fail, ok], the failing second hook stops hook
execution (the third hook is never run), SyncContainer fails with an error
that carries the second hook's label and captured output, and no
fingerprint write reaches the container. -/
theorem C2_hook_failure_atomicity (hashFn : List Nat → String) (dns : String → DNSRecord)
    (hw : HostWorld) (cw : ContainerWorld) (cfg : SandboxConfig) (force : Bool)
    (h1 h2 h3 : OnSyncHook) (items : List SyncItem) (e out : String)
    (hhooks : cfg.onSync = [h1, h2, h3])
    (hbuild : (buildSyncManifest hw cfg).2 = Except.ok items)
    (hskip : skipDecision cw.storedHash force (hashFn (syncHashInput items cfg)) = false)
    (hpush : ∀ i, cw.pushErr i = none)
    (hr0 : (cw.hookRes 0).errText = none)
    (hr1e : (cw.hookRes 1).errText = some e)
    (hr1o : (cw.hookRes 1).output = out) :
    (SyncContainer hashFn dns hw cw cfg force).2 =
      Except.error (hookErrorMsg (hookLabel h2) e out) ∧
    (∀ l u, ¬ SyncOp.runHook 2 l u ∈ (SyncContainer hashFn dns hw cw cfg force).1) ∧
    (∀ s, ¬ SyncOp.writeHash s ∈ (SyncContainer hashFn dns hw cw cfg force).1) ∧
    (∃ s t, hookErrorMsg (hookLabel h2) e out = s ++ (hookLabel h2 ++ t)) ∧
    (∃ s, hookErrorMsg (hookLabel h2) e out = s ++ out) := by
  have hitems : syncItemsModel cw.pushErr items =
      (items.map (fun i => SyncOp.pushItem i.dest), none) :=
    syncItemsModel_ok cw.pushErr items (fun i _ => hpush i)
  have hfw : ∀ a b : SyncItem,
      syncItemsModel cw.pushErr [a, b] =
        ([SyncOp.pushItem a.dest, SyncOp.pushItem b.dest], none) := by
    intro a b
    simp [syncItemsModel, hpush a, hpush b]
  have hrun : runOnSyncHooks cw.hookRes 0 [h1, h2, h3] =
      ([SyncOp.runHook 0 (hookLabel h1) (hookUser h1),
        SyncOp.runHook 1 (hookLabel h2) (hookUser h2)],
       some (hookErrorMsg (hookLabel h2) e out)) := by
    simp [runOnSyncHooks, hr0, hr1e, hr1o]
  have hred : SyncContainer hashFn dns hw cw cfg force =
      ((resolveFirewallEntries dns cfg.firewall).1.map SyncOp.resolveLookup ++
        items.map (fun i => SyncOp.pushItem i.dest) ++
        [SyncOp.pushItem "/opt/sandbox-firewall-rules.sh",
         SyncOp.pushItem "/opt/sandbox-firewall-rules6.sh"] ++
        (if cw.oldV4 ≠ (buildFirewallRules (resolveFirewallEntries dns cfg.firewall).2.1
              (resolveFirewallEntries dns cfg.firewall).2.2).1 ∨
            cw.oldV6 ≠ (buildFirewallRules (resolveFirewallEntries dns cfg.firewall).2.1
              (resolveFirewallEntries dns cfg.firewall).2.2).2
          then [SyncOp.applyFirewall] else []) ++
        [SyncOp.runHook 0 (hookLabel h1) (hookUser h1),
         SyncOp.runHook 1 (hookLabel h2) (hookUser h2)],
       Except.error (hookErrorMsg (hookLabel h2) e out)) := by
    unfold SyncContainer
    rw [hbuild]
    simp [hskip, hitems, hfw, hhooks, hrun, List.append_assoc]
  refine ⟨?_, ?_, ?_, ?_, ?_⟩
  · rw [hred]
  · intro l u hmem
    rw [hred] at hmem
    simp only [List.mem_append, List.mem_map, List.mem_cons, List.mem_singleton,
      mem_ite_singleton, List.not_mem_nil] at hmem
    rcases hmem with ((((⟨a, -, ha⟩ | ⟨i, -, hi⟩) | hfwm) | ⟨-, happ⟩) | hh) <;>
      simp_all
  · intro s hmem
    rw [hred] at hmem
    simp only [List.mem_append, List.mem_map, List.mem_cons, List.mem_singleton,
      mem_ite_singleton, List.not_mem_nil] at hmem
    rcases hmem with ((((⟨a, -, ha⟩ | ⟨i, -, hi⟩) | hfwm) | ⟨-, happ⟩) | hh) <;>
      simp_all
  · refine ⟨"on_sync hook \"", "\" failed: " ++ e ++ "\n" ++ out, ?_⟩
    simp [hookErrorMsg, String.append_assoc]
  · exact ⟨"on_sync hook \"" ++ hookLabel h2 ++ "\" failed: " ++ e ++ "\n", rfl⟩

/-- First hook: succeeds. -/
def hk1 : OnSyncHook := { cmd := "echo a", name := "", root := false }

/-- Second hook: fails (labelled). -/
def hk2 : OnSyncHook := { cmd := "false", name := "install deps", root := true }

/-- Third hook: would succeed, must never run. -/
def hk3 : OnSyncHook := { cmd := "echo c", name := "", root := false }

/-- Configuration whose hooks are [ok, fail, ok]. -/
def cfgHooks : SandboxConfig :=
  { sync := [], env := [], firewall := [], onSync := [hk1, hk2, hk3] }

/-- Container world where the second hook exits non-zero with output
"boom" and everything else succeeds. -/
def cwHookFail : ContainerWorld :=
  { storedHash := Except.error "missing", oldV4 := "", oldV6 := ""
    pushErr := fun _ => none, applyErr := none
    hookRes := fun i =>
      if i = 1 then { errText := some "exit status 1", output := "boom" }
      else { errText := none, output := "" }
    writeHashErr := none }

/-- C2 witness: the concrete [ok, fail, ok] run. -/
theorem C2_hook_failure_atomicity_witness :
    (SyncContainer constHash dnsNone hwMinimal cwHookFail cfgHooks true).2 =
      Except.error (hookErrorMsg (hookLabel hk2) "exit status 1" "boom") ∧
    (∀ l u, ¬ SyncOp.runHook 2 l u ∈
      (SyncContainer constHash dnsNone hwMinimal cwHookFail cfgHooks true).1) ∧
    (∀ s, ¬ SyncOp.writeHash s ∈
      (SyncContainer constHash dnsNone hwMinimal cwHookFail cfgHooks true).1) ∧
    (∃ s t, hookErrorMsg (hookLabel hk2) "exit status 1" "boom" = s ++ (hookLabel hk2 ++ t)) ∧
    (∃ s, hookErrorMsg (hookLabel hk2) "exit status 1" "boom" = s ++ "boom") :=
  C2_hook_failure_atomicity constHash dnsNone hwMinimal cwHookFail cfgHooks true
    hk1 hk2 hk3
    [{ data := [1], dest := "/opt/entrypoint.sh", mode := "0755", owner := "root:root" },
     { data := [2], dest := "/opt/init-firewall.sh", mode := "0755", owner := "root:root" }]
    "exit status 1" "boom" rfl rfl rfl (fun _ => rfl) rfl rfl rfl

/-! ## C1: fingerprint coverage -/

/-- The items of a successful manifest build (empty on failure). -/
def manifestItems (w : HostWorld) (cfg : SandboxConfig) : List SyncItem :=
  match (buildSyncManifest w cfg).2 with
  | Except.ok l => l
  | Except.error _ => []

/-- Host world for the fingerprint counterexample: one readable file. -/
def hwOneFile : HostWorld :=
  { userHome := none, entrypointScript := [1], firewallScript := [2]
    sandboxHome := none
    glob := fun p => if p = "/data/f" then Except.ok ["/data/f"] else Except.ok []
    readFile := fun p => if p = "/data/f" then Except.ok [7] else Except.error "not found"
    getenv := fun _ => none }

/-- A config syncing /data/f with the default mode 0644. -/
def cfgMode644 : SandboxConfig :=
  { sync := [{ src := "/data/f", dest := "/dst/f", mode := "", owner := "" }]
    env := [], firewall := [], onSync := [] }

/-- The same config with explicit mode 0755 — different container state
(the pushed file's permission bits differ), nothing else changed. -/
def cfgMode755 : SandboxConfig :=
  { sync := [{ src := "/data/f", dest := "/dst/f", mode := "0755", owner := "" }]
    env := [], firewall := [], onSync := [] }

/-- C1 counterexample: the two configurations produce different container
state at /dst/f (the file mode differs, and syncItems chmods each pushed
item), yet the byte streams fed to SHA-256 are identical — the hash covers
each item's bytes and destination but neither mode nor owner — so the
fingerprints are equal where the claim requires them to differ. -/
theorem C1_counterexample :
    (buildSyncManifest hwOneFile cfgMode644).2 =
      Except.ok (manifestItems hwOneFile cfgMode644) ∧
    (buildSyncManifest hwOneFile cfgMode755).2 =
      Except.ok (manifestItems hwOneFile cfgMode755) ∧
    ¬ containerState (manifestItems hwOneFile cfgMode644) "/dst/f" =
        containerState (manifestItems hwOneFile cfgMode755) "/dst/f" ∧
    syncHashInput (manifestItems hwOneFile cfgMode644) cfgMode644 =
      syncHashInput (manifestItems hwOneFile cfgMode755) cfgMode755 := by
  refine ⟨rfl, rfl, ?_, rfl⟩
  decide

/-- The per-item hash contribution only reads data and destination. -/
theorem flatMap_itemHashInput_congr : ∀ (l1 l2 : List SyncItem),
    l1.map (fun i => (i.data, i.dest)) = l2.map (fun i => (i.data, i.dest)) →
    l1.flatMap itemHashInput = l2.flatMap itemHashInput
  | [], [], _ => rfl
  | [], _ :: _, h => by simp at h
  | _ :: _, [], h => by simp at h
  | i1 :: r1, i2 :: r2, h => by
    simp only [List.map_cons, List.cons.injEq, Prod.mk.injEq] at h
    obtain ⟨⟨hd, hdst⟩, ht⟩ := h
    simp only [List.flatMap_cons, itemHashInput, hd, hdst,
      flatMap_itemHashInput_congr r1 r2 ht]

/-- C1 amended: the fingerprint input stream is exactly determined by the
items' (bytes, destination) sequence, the firewall allow list, and the
hook list; two configurations agreeing on those produce equal fingerprint
inputs and thus equal fingerprints, regardless of any difference in item
modes or owners. -/
theorem C1_amended_fingerprint_input (items1 items2 : List SyncItem)
    (cfg1 cfg2 : SandboxConfig)
    (hitems : items1.map (fun i => (i.data, i.dest)) = items2.map (fun i => (i.data, i.dest)))
    (hfw : cfg1.firewall = cfg2.firewall)
    (hhooks : cfg1.onSync = cfg2.onSync) :
    syncHashInput items1 cfg1 = syncHashInput items2 cfg2 := by
  unfold syncHashInput firewallConfigHashInput
  rw [hfw, hhooks, flatMap_itemHashInput_congr items1 items2 hitems]

/-- C1 amended witness: two one-item manifests differing only in mode and
owner hash identically. -/
theorem C1_amended_fingerprint_input_witness :
    ([{ data := [7], dest := "/dst/f", mode := "0644", owner := "agent:agent" }].map
        (fun i : SyncItem => (i.data, i.dest)) =
      [{ data := [7], dest := "/dst/f", mode := "0755", owner := "root:root" }].map
        (fun i : SyncItem => (i.data, i.dest))) ∧
    syncHashInput [{ data := [7], dest := "/dst/f", mode := "0644", owner := "agent:agent" }]
        emptyConfig =
      syncHashInput [{ data := [7], dest := "/dst/f", mode := "0755", owner := "root:root" }]
        emptyConfig :=
  ⟨rfl, C1_amended_fingerprint_input
    [{ data := [7], dest := "/dst/f", mode := "0644", owner := "agent:agent" }]
    [{ data := [7], dest := "/dst/f", mode := "0755", owner := "root:root" }]
    emptyConfig emptyConfig rfl rfl rfl⟩

/-! ## C6: config loading errors -/

/-- Success test for an Except value. -/
def exceptOk {ε α : Type} : Except ε α → Bool
  | Except.ok _ => true
  | Except.error _ => false

/-- A read that failed for a reason other than non-existence. -/
def readAborts : FileRead → Bool
  | FileRead.readErr _ => true
  | _ => false

/-- A document that does not exist. -/
def docAbsent : FileRead → Bool
  | FileRead.notExist => true
  | _ => false

/-- Filesystem for the C6 counterexample: the global config exists but is
unreadable (permission denied), the workspace config exists and parses. -/
def fsUnreadableGlobal : String → FileRead := fun p =>
  if p = "/home/u/.ao/sandbox/config.yaml" then FileRead.readErr "permission denied"
  else if p = "/ws/.ao/sandbox/config.yaml" then FileRead.content (some emptyConfig)
  else FileRead.notExist

/-- C6 counterexample: a present but unreadable global document makes
loadConfig fail even though the workspace document exists, refuting
"error if and only if neither document exists". -/
theorem C6_counterexample :
    fsUnreadableGlobal "/ws/.ao/sandbox/config.yaml" = FileRead.content (some emptyConfig) ∧
    (loadConfig (some "/home/u") fsUnreadableGlobal "/ws").2 =
      Except.error "load global config: permission denied" := by
  exact ⟨rfl, rfl⟩

/-- C6 amended: loadConfig succeeds exactly when the home directory is
known, neither read fails for a reason other than non-existence, and at
least one of the two documents is present; a missing file alone is never
an error, and a present-but-malformed document is reported with a warning
and parsed as the empty configuration. -/
theorem C6_amended_load_errors (home wsPath : String) (fileAt : String → FileRead) :
    (exceptOk (loadConfig (some home) fileAt wsPath).2 =
      (!readAborts (fileAt (joinPath (joinPath (joinPath home ".ao") "sandbox") "config.yaml")) &&
       !readAborts (fileAt (joinPath (joinPath (joinPath wsPath ".ao") "sandbox") "config.yaml")) &&
       !(docAbsent (fileAt (joinPath (joinPath (joinPath home ".ao") "sandbox") "config.yaml")) &&
         docAbsent (fileAt (joinPath (joinPath (joinPath wsPath ".ao") "sandbox") "config.yaml"))))) ∧
    (∀ path, fileAt path = FileRead.content none →
      parseConfigFile fileAt path =
        (["warning: failed to parse " ++ path],
         Except.ok (some { sync := [], env := [], firewall := [], onSync := [] }))) ∧
    (loadConfig none fileAt wsPath).2 = Except.error "get home directory: unavailable" := by
  refine ⟨?_, ?_, rfl⟩
  · rcases hg : fileAt (joinPath (joinPath (joinPath home ".ao") "sandbox") "config.yaml") with
      _ | ge | gdoc <;>
      rcases hw : fileAt (joinPath (joinPath (joinPath wsPath ".ao") "sandbox") "config.yaml") with
        _ | we | wdoc <;>
      · first
        | (cases gdoc <;> cases wdoc <;>
            simp [loadConfig, parseConfigFile, hg, hw, exceptOk, readAborts, docAbsent])
        | (cases gdoc <;> simp [loadConfig, parseConfigFile, hg, hw, exceptOk, readAborts, docAbsent])
        | (cases wdoc <;> simp [loadConfig, parseConfigFile, hg, hw, exceptOk, readAborts, docAbsent])
        | simp [loadConfig, parseConfigFile, hg, hw, exceptOk, readAborts, docAbsent]
  · intro path hp
    simp [parseConfigFile, hp]

/-! ## C7: manifest build error handling -/

/-- The home-directory walk succeeds (or is skipped). -/
def walkOk (w : HostWorld) : Bool :=
  match w.userHome with
  | none => true
  | some _ =>
    match w.sandboxHome with
    | none => true
    | some entries => entries.all (fun e => exceptOk e.2)

/-- A rule whose glob expansion does not error. -/
def ruleGlobOk (w : HostWorld) (r : SyncRule) : Bool :=
  exceptOk (w.glob (expandTilde w.userHome r.src))

/-- The walk aborts exactly on a failed read. -/
theorem exceptOk_walkHomeItems (entries : List (String × Except String (List Nat))) :
    exceptOk (walkHomeItems entries) = entries.all (fun e => exceptOk e.2) := by
  induction entries with
  | nil => rfl
  | cons e rest ih =>
    obtain ⟨rel, res⟩ := e
    rcases res with err | data
    · simp [walkHomeItems, exceptOk]
    · rcases hr : walkHomeItems rest with err2 | items2 <;>
      · rw [List.all_cons, ← ih, hr]
        simp [walkHomeItems, hr, exceptOk]

/-- One rule aborts exactly on a glob error; a read error never aborts. -/
theorem exceptOk_ruleItems (w : HostWorld) (r : SyncRule) :
    exceptOk (ruleItems w r).2 = ruleGlobOk w r := by
  rcases hg : w.glob (expandTilde w.userHome r.src) with e | ms <;>
    simp [ruleItems, ruleGlobOk, hg, exceptOk]

/-- The rule loop aborts exactly when some rule's glob errors. -/
theorem exceptOk_rulesItems (w : HostWorld) (rs : List SyncRule) :
    exceptOk (rulesItems w rs).2 = rs.all (ruleGlobOk w) := by
  induction rs with
  | nil => rfl
  | cons r rest ih =>
    have hr := exceptOk_ruleItems w r
    rcases hri : ruleItems w r with ⟨ws, res⟩
    rw [hri] at hr
    rcases res with e | items
    · simp only [exceptOk] at hr
      simp [rulesItems, hri, exceptOk, List.all_cons, ← hr]
    · simp only [exceptOk] at hr
      rcases hrest : rulesItems w rest with ⟨ws2, res2⟩
      rw [hrest] at ih
      rcases res2 with e2 | items2 <;>
        simp [rulesItems, hri, hrest, exceptOk, List.all_cons, ← hr, ← ih]

/-- C7 counterexample: an unreadable file encountered by the
home-directory walk aborts the whole manifest build with an error instead
of being warned about and skipped; removing that single file makes the
same build succeed. -/
theorem C7_counterexample :
    (buildSyncManifest
        { hwMinimal with
            userHome := some "/home/u"
            sandboxHome := some [("f.txt", Except.error "permission denied")] }
        emptyConfig).2 =
      Except.error "walk home dir: permission denied" ∧
    exceptOk (buildSyncManifest
        { hwMinimal with
            userHome := some "/home/u"
            sandboxHome := some [] }
        emptyConfig).2 = true := by
  exact ⟨rfl, rfl⟩

/-- C7 amended: the manifest build aborts exactly when the home-directory
walk hits a read error or some rule's glob expansion errors; a source file
of an explicit sync rule that cannot be read is recovered locally — the
rule loop emits one warning per unreadable match, skips just that file,
and keeps every readable match, in order. -/
theorem C7_amended_item_errors (w : HostWorld) (cfg : SandboxConfig) :
    (exceptOk (buildSyncManifest w cfg).2 = (walkOk w && cfg.sync.all (ruleGlobOk w))) ∧
    (∀ r ms, w.glob (expandTilde w.userHome r.src) = Except.ok ms →
      ruleItems w r =
        ((if ms = [] then [expandTilde w.userHome r.src] else ms).filterMap
          (fun m => match w.readFile m with
            | Except.error e => some ("warning: cannot read " ++ m ++ ": " ++ e)
            | Except.ok _ => none),
         Except.ok ((if ms = [] then [expandTilde w.userHome r.src] else ms).filterMap
          (fun m => match w.readFile m with
            | Except.ok data => some
                { data := data
                  dest := if (if ms = [] then [expandTilde w.userHome r.src] else ms).length > 1
                    then joinPath (expandContainerTilde r.dest) (baseName m)
                    else expandContainerTilde r.dest
                  mode := if r.mode = "" then "0644" else r.mode
                  owner := if r.owner = "" then "agent:agent" else r.owner }
            | Except.error _ => none)))) := by
  constructor
  · unfold buildSyncManifest
    have hrules := exceptOk_rulesItems w cfg.sync
    rcases hrs : rulesItems w cfg.sync with ⟨ws, res⟩
    rw [hrs] at hrules
    rcases hu : w.userHome with _ | home
    · rcases res with e | items <;>
        simp [hrs, walkOk, hu, exceptOk, ← hrules]
    · rcases hs : w.sandboxHome with _ | entries
      · rcases res with e | items <;>
          simp [hrs, walkOk, hu, hs, exceptOk, ← hrules]
      · have hwalk := exceptOk_walkHomeItems entries
        rcases hwk : walkHomeItems entries with e | homeItems
        · rw [hwk] at hwalk
          simp only [exceptOk] at hwalk
          simp [hwk, walkOk, hu, hs, exceptOk, ← hwalk]
        · rw [hwk] at hwalk
          simp only [exceptOk] at hwalk
          rcases res with e | items <;>
            simp [hwk, hrs, walkOk, hu, hs, exceptOk, ← hwalk, ← hrules]
  · intro r ms hg
    simp only [ruleItems, hg]
    have aux : ∀ (ma : List String) (mode owner dest : String)
        (acc : List String × List SyncItem),
        ma.foldl
          (fun (acc : List String × List SyncItem) m =>
            match w.readFile m with
            | Except.error e => (acc.1 ++ ["warning: cannot read " ++ m ++ ": " ++ e], acc.2)
            | Except.ok data =>
              let d := if (if ms = [] then [expandTilde w.userHome r.src] else ms).length > 1
                then joinPath dest (baseName m) else dest
              (acc.1, acc.2 ++ [{ data := data, dest := d, mode := mode, owner := owner }]))
          acc =
        (acc.1 ++ ma.filterMap
          (fun m => match w.readFile m with
            | Except.error e => some ("warning: cannot read " ++ m ++ ": " ++ e)
            | Except.ok _ => none),
         acc.2 ++ ma.filterMap
          (fun m => match w.readFile m with
            | Except.ok data => some
                { data := data
                  dest := if (if ms = [] then [expandTilde w.userHome r.src] else ms).length > 1
                    then joinPath dest (baseName m) else dest
                  mode := mode, owner := owner }
            | Except.error _ => none)) := by
      intro ma
      induction ma with
      | nil => intro mode owner dest acc; simp
      | cons m rest ih =>
        intro mode owner dest acc
        rcases hm : w.readFile m with e | data <;>
          simp [List.foldl_cons, List.filterMap_cons, hm, ih]
    rw [aux (if ms = [] then [expandTilde w.userHome r.src] else ms)
      (if r.mode = "" then "0644" else r.mode)
      (if r.owner = "" then "agent:agent" else r.owner)
      (expandContainerTilde r.dest) ([], [])]
    simp

/-! ## C8: merge semantics -/

/-- Lookup distributes over append, left-biased. -/
theorem envLookup_append {α : Type} (a b : List (String × α)) (q : String) :
    envLookup (a ++ b) q = optOr (envLookup a q) (envLookup b q) := by
  induction a with
  | nil => rfl
  | cons e rest ih =>
    by_cases he : e.1 = q <;> simp [envLookup, he, ih, optOr]

/-- Lookup after replacing the value stored under an existing key. -/
theorem envLookup_map_replace {α : Type} (m : List (String × α)) (k : String) (v : α)
    (q : String) :
    envLookup (m.map (fun e => if e.1 = k then (k, v) else e)) q =
      if k = q then (envLookup m k).map (fun _ => v) else envLookup m q := by
  induction m with
  | nil => by_cases hkq : k = q <;> simp [envLookup, hkq]
  | cons e rest ih =>
    by_cases hek : e.1 = k
    · by_cases hkq : k = q <;> simp [envLookup, hek, hkq, ih]
    · by_cases heq : e.1 = q
      · have hkq : ¬ k = q := fun h => hek (heq.trans h.symm)
        simp [envLookup, hek, heq, hkq, ih, show ¬ q = k from fun h => hkq h.symm]
      · simp [envLookup, hek, heq, ih]

/-- Lookup after a Go map insert: the inserted key maps to the new value,
every other key is untouched. -/
theorem envLookup_envInsert {α : Type} (m : List (String × α)) (k : String) (v : α)
    (q : String) :
    envLookup (envInsert m k v) q = if k = q then some v else envLookup m q := by
  unfold envInsert
  by_cases hs : (envLookup m k).isSome
  · obtain ⟨w, hw⟩ := Option.isSome_iff_exists.1 hs
    simp [hs, envLookup_map_replace, hw]
  · have hn : envLookup m k = none := Option.not_isSome_iff_eq_none.1 hs
    rw [if_neg hs, envLookup_append]
    by_cases hkq : k = q
    · subst hkq
      simp [envLookup, hn, optOr]
    · cases hq : envLookup m q <;> simp [envLookup, hkq, hq, optOr]

/-- Lookup after inserting a whole list: the last binding in the list
wins, then the original map. -/
theorem envLookup_envInsertAll {α : Type} (l : List (String × α)) :
    ∀ (m : List (String × α)) (q : String),
      envLookup (envInsertAll m l) q = optOr (envLookup l.reverse q) (envLookup m q) := by
  induction l with
  | nil => intro m q; rfl
  | cons e rest ih =>
    intro m q
    have hstep : envInsertAll m (e :: rest) = envInsertAll (envInsert m e.1 e.2) rest := rfl
    rw [hstep, ih, List.reverse_cons, envLookup_append, envLookup_envInsert]
    cases hrr : envLookup rest.reverse q <;> by_cases hekq : e.1 = q <;>
      simp [optOr, envLookup, hekq]

/-- A successful lookup exhibits a binding. -/
theorem envLookup_mem {α : Type} (m : List (String × α)) (q : String) (v : α)
    (h : envLookup m q = some v) : (q, v) ∈ m := by
  induction m with
  | nil => cases h
  | cons e rest ih =>
    rcases e with ⟨a, b⟩
    by_cases he : a = q
    · simp only [envLookup, he, if_pos] at h
      obtain rfl : b = v := Option.some.inj h
      exact List.mem_cons.2 (Or.inl (by rw [he]))
    · simp only [envLookup, he, if_neg, if_false] at h
      exact List.mem_cons_of_mem _ (ih h)

/-- A key that appears has a (isSome) lookup. -/
theorem envLookup_isSome_of_mem_keys {α : Type} (m : List (String × α)) (q : String)
    (h : q ∈ m.map (fun e => e.1)) : (envLookup m q).isSome := by
  induction m with
  | nil => cases h
  | cons e rest ih =>
    by_cases he : e.1 = q
    · simp [envLookup, he]
    · rw [List.map_cons] at h
      rcases List.mem_cons.1 h with h1 | h1

      · exact absurd h1.symm he
      · simp [envLookup, he, ih h1]

/-- An absent key looks up to none. -/
theorem envLookup_eq_none {α : Type} (m : List (String × α)) (q : String)
    (h : ¬ q ∈ m.map (fun e => e.1)) : envLookup m q = none := by
  induction m with
  | nil => rfl
  | cons e rest ih =>
    rw [List.map_cons] at h
    have he : ¬ e.1 = q := fun hx => h (List.mem_cons.2 (Or.inl hx.symm))
    have hr : ¬ q ∈ rest.map (fun e => e.1) := fun hx => h (List.mem_cons.2 (Or.inr hx))
    simp [envLookup, he, ih hr]

/-- Under unique keys, looking up the reversed list is the same lookup. -/
theorem envLookup_reverse_of_nodup {α : Type} (m : List (String × α))
    (hnd : (m.map (fun e => e.1)).Nodup) (q : String) :
    envLookup m.reverse q = envLookup m q := by
  rcases h : envLookup m q with _ | v
  · apply envLookup_eq_none
    intro hq
    have hq2 : q ∈ m.map (fun e => e.1) := by
      rw [List.map_reverse] at hq
      simpa using hq
    have := envLookup_isSome_of_mem_keys m q hq2
    rw [h] at this
    cases this
  · have hmem := envLookup_mem m q v h
    have hnd2 : (m.reverse.map (fun e => e.1)).Nodup := by
      rw [List.map_reverse]
      exact List.nodup_reverse.2 hnd
    exact envLookup_of_nodup m.reverse q v hnd2 (List.mem_reverse.2 hmem)

/-- Invariant of the sync-rule merge fold: the destination order and the
destMap track the same key set, and each binding stores a rule whose
destination is its key. -/
def MergeInv (st : List String × List (String × SyncRule)) : Prop :=
  (∀ d, (envLookup st.2 d).isSome ↔ d ∈ st.1) ∧
  (∀ d r, envLookup st.2 d = some r → r.dest = d)

/-- One merge step preserves the invariant. -/
theorem mergeInv_step (st : List String × List (String × SyncRule)) (r : SyncRule)
    (h : MergeInv st) : MergeInv (syncMergeStep st r) := by
  obtain ⟨h1, h2⟩ := h
  constructor
  · intro d
    show (envLookup (envInsert st.2 r.dest r) d).isSome ↔ _
    rw [envLookup_envInsert]
    by_cases hd : r.dest = d
    · subst hd
      by_cases hs : (envLookup st.2 r.dest).isSome
      · simp [syncMergeStep, hs, (h1 r.dest).1 hs]
      · simp [syncMergeStep, hs]
    · by_cases hs : (envLookup st.2 r.dest).isSome
      · simp [syncMergeStep, hs, hd, h1 d]
      · simp [syncMergeStep, hs, hd, h1 d, show ¬ d = r.dest from fun hx => hd hx.symm]
  · intro d rr
    show envLookup (envInsert st.2 r.dest r) d = some rr → rr.dest = d
    rw [envLookup_envInsert]
    by_cases hd : r.dest = d
    · intro hx
      obtain rfl : r = rr := by
        rw [if_pos hd] at hx
        exact Option.some.inj hx
      exact hd
    · rw [if_neg hd]
      exact h2 d rr

/-- The fold preserves the invariant. -/
theorem syncFold_inv (rs : List SyncRule) :
    ∀ st, MergeInv st → MergeInv (rs.foldl syncMergeStep st) := by
  induction rs with
  | nil => intro st h; exact h
  | cons r rest ih => intro st h; exact ih _ (mergeInv_step st r h)

/-- After the fold, a destination resolves to the last rule for it in the
processed list, else to whatever the initial map said. -/
theorem syncFold_lookup (rs : List SyncRule) :
    ∀ (st : List String × List (String × SyncRule)) (d : String),
      envLookup (rs.foldl syncMergeStep st).2 d =
        optOr (lastRuleFor rs d) (envLookup st.2 d) := by
  induction rs with
  | nil => intro st d; rfl
  | cons r rest ih =>
    intro st d
    rw [List.foldl_cons, ih]
    show optOr (lastRuleFor rest d) (envLookup (envInsert st.2 r.dest r) d) = _
    rw [envLookup_envInsert]
    have hl : lastRuleFor (r :: rest) d =
        optOr (lastRuleFor rest d) (if r.dest = d then some r else none) := by
      unfold lastRuleFor
      rw [List.reverse_cons, List.find?_append]
      cases hfr : rest.reverse.find? (fun x => x.dest = d) <;>
        by_cases hrd : r.dest = d <;> simp [List.find?, hrd, optOr]
    rw [hl]
    cases hfr : lastRuleFor rest d <;> by_cases hrd : r.dest = d <;> simp [optOr, hrd]

/-- Seen sets with the same members dedup identically. -/
theorem dedupFirstFrom_congr (s1 s2 : List String) (h : ∀ x, x ∈ s1 ↔ x ∈ s2) :
    ∀ (l : List String), dedupFirstFrom s1 l = dedupFirstFrom s2 l
  | [] => rfl
  | d :: rest => by
    by_cases hd : d ∈ s1
    · rw [dedupFirstFrom, dedupFirstFrom, if_pos hd, if_pos ((h d).1 hd)]
      exact dedupFirstFrom_congr s1 s2 h rest
    · rw [dedupFirstFrom, dedupFirstFrom, if_neg hd, if_neg (fun hx => hd ((h d).2 hx))]
      rw [dedupFirstFrom_congr (d :: s1) (d :: s2) (by intro x; simp [h x]) rest]

/-- After the fold, the destination order extends the initial order by the
first occurrences of the processed destinations. -/
theorem syncFold_ord (rs : List SyncRule) :
    ∀ (st : List String × List (String × SyncRule)), MergeInv st →
      (rs.foldl syncMergeStep st).1 =
        st.1 ++ dedupFirstFrom st.1 (rs.map (fun r => r.dest)) := by
  induction rs with
  | nil => intro st _; simp [dedupFirstFrom]
  | cons r rest ih =>
    intro st hinv
    rw [List.foldl_cons, ih _ (mergeInv_step st r hinv), List.map_cons]
    by_cases hs : (envLookup st.2 r.dest).isSome
    · have hmem : r.dest ∈ st.1 := (hinv.1 r.dest).1 hs
      have hord : (syncMergeStep st r).1 = st.1 := by simp [syncMergeStep, hs]
      rw [hord, dedupFirstFrom, if_pos hmem]
    · have hmem : ¬ r.dest ∈ st.1 := fun hm => hs ((hinv.1 r.dest).2 hm)
      have hord : (syncMergeStep st r).1 = st.1 ++ [r.dest] := by simp [syncMergeStep, hs]
      rw [hord, dedupFirstFrom, if_neg hmem]
      rw [dedupFirstFrom_congr (st.1 ++ [r.dest]) (r.dest :: st.1)
        (by intro x; simp [or_comm]) _]
      simp [List.append_assoc]

/-- Every listed destination resolves to a rule targeting it, so mapping
dest over the final lookup chain returns the order list itself. -/
theorem filterMap_envLookup_dest (mp : List (String × SyncRule)) (ord : List String)
    (h : ∀ d ∈ ord, ∃ r, envLookup mp d = some r ∧ r.dest = d) :
    (ord.filterMap (envLookup mp)).map (fun r => r.dest) = ord := by
  induction ord with
  | nil => rfl
  | cons d rest ih =>
    obtain ⟨r, hr, hd⟩ := h d (List.mem_cons_self _ _)
    simp [List.filterMap_cons, hr, hd, ih (fun x hx => h x (List.mem_cons_of_mem _ hx))]

/-- C8: mergeConfig merges environment variables key-wise with override
winning and base-only keys kept; merges sync rules keyed by destination —
the merged order is the first-occurrence order of destinations across
base-then-override, and each destination carries the last rule given for
it (an override rule thus replaces a same-destination base rule in place,
distinct destinations are additive in order); and concatenates the
firewall allow lists without deduplication. -/
theorem C8_merge_semantics (base override : SandboxConfig)
    (hb : (base.env.map (fun e => e.1)).Nodup)
    (ho : (override.env.map (fun e => e.1)).Nodup) :
    (∀ k, envLookup (mergeConfig base override).env k =
        optOr (envLookup override.env k) (envLookup base.env k)) ∧
    ((mergeConfig base override).sync.map (fun r => r.dest) =
      dedupFirstFrom [] ((base.sync ++ override.sync).map (fun r => r.dest))) ∧
    (∀ r, r ∈ (mergeConfig base override).sync →
      lastRuleFor (base.sync ++ override.sync) r.dest = some r) ∧
    (mergeConfig base override).firewall = base.firewall ++ override.firewall := by
  have hinv0 : MergeInv ([], []) := by
    constructor
    · intro d; simp [envLookup]
    · intro d r h; cases h
  have hfold : override.sync.foldl syncMergeStep (base.sync.foldl syncMergeStep ([], [])) =
      (base.sync ++ override.sync).foldl syncMergeStep ([], []) := by
    rw [List.foldl_append]
  have hsync : (mergeConfig base override).sync =
      ((base.sync ++ override.sync).foldl syncMergeStep ([], [])).1.filterMap
        (envLookup ((base.sync ++ override.sync).foldl syncMergeStep ([], [])).2) := by
    simp only [mergeConfig]
    rw [hfold]
  have hinv := syncFold_inv (base.sync ++ override.sync) ([], []) hinv0
  have hlook : ∀ d, envLookup ((base.sync ++ override.sync).foldl syncMergeStep ([], [])).2 d =
      lastRuleFor (base.sync ++ override.sync) d := by
    intro d
    rw [syncFold_lookup]
    cases lastRuleFor (base.sync ++ override.sync) d <;> simp [optOr, envLookup]
  refine ⟨?_, ?_, ?_, ?_⟩
  · intro k
    show envLookup (envInsertAll (envInsertAll [] base.env) override.env) k = _
    rw [envLookup_envInsertAll, envLookup_envInsertAll,
      envLookup_reverse_of_nodup override.env ho k,
      envLookup_reverse_of_nodup base.env hb k]
    cases envLookup base.env k <;> cases envLookup override.env k <;> simp [optOr, envLookup]
  · rw [hsync]
    rw [filterMap_envLookup_dest _ _ ?keys]
    case keys =>
      intro d hd
      have hs : (envLookup ((base.sync ++ override.sync).foldl syncMergeStep ([], [])).2 d).isSome :=
        (hinv.1 d).2 hd
      obtain ⟨r, hr⟩ := Option.isSome_iff_exists.1 hs
      exact ⟨r, hr, hinv.2 d r hr⟩
    rw [syncFold_ord _ ([], []) hinv0]
    simp
  · intro r hr
    rw [hsync] at hr
    obtain ⟨d, hd, hlookup⟩ := List.mem_filterMap.1 hr
    rw [hlook d] at hlookup
    have hdest : r.dest = d := by
      have := List.find?_some hlookup
      simpa using this
    rw [hdest]
    exact hlookup
  · simp [mergeConfig]

/-- C8 witness: a concrete merge with one shared env key, one shared
destination, and distinct firewall entries. -/
theorem C8_merge_semantics_witness :
    (∀ k, envLookup (mergeConfig
        { sync := [{ src := "s1", dest := "/d1", mode := "", owner := "" },
                   { src := "s2", dest := "/d2", mode := "", owner := "" }]
          env := [("A", "1"), ("B", "2")]
          firewall := [{ domain := "a.com", cidr := "", ports := [] }]
          onSync := [] }
        { sync := [{ src := "s2x", dest := "/d2", mode := "0755", owner := "" },
                   { src := "s3", dest := "/d3", mode := "", owner := "" }]
          env := [("B", "3"), ("C", "4")]
          firewall := [{ domain := "", cidr := "10.0.0.0/8", ports := [443] }]
          onSync := [] }).env k =
      optOr (envLookup [("B", "3"), ("C", "4")] k) (envLookup [("A", "1"), ("B", "2")] k)) ∧
    ((mergeConfig
        { sync := [{ src := "s1", dest := "/d1", mode := "", owner := "" },
                   { src := "s2", dest := "/d2", mode := "", owner := "" }]
          env := [("A", "1"), ("B", "2")]
          firewall := [{ domain := "a.com", cidr := "", ports := [] }]
          onSync := [] }
        { sync := [{ src := "s2x", dest := "/d2", mode := "0755", owner := "" },
                   { src := "s3", dest := "/d3", mode := "", owner := "" }]
          env := [("B", "3"), ("C", "4")]
          firewall := [{ domain := "", cidr := "10.0.0.0/8", ports := [443] }]
          onSync := [] }).sync.map (fun r => r.dest) =
      dedupFirstFrom []
        ((([{ src := "s1", dest := "/d1", mode := "", owner := "" },
            { src := "s2", dest := "/d2", mode := "", owner := "" }] : List SyncRule) ++
          ([{ src := "s2x", dest := "/d2", mode := "0755", owner := "" },
            { src := "s3", dest := "/d3", mode := "", owner := "" }] : List SyncRule)).map
          (fun r => r.dest))) ∧
    (∀ r, r ∈ (mergeConfig
        { sync := [{ src := "s1", dest := "/d1", mode := "", owner := "" },
                   { src := "s2", dest := "/d2", mode := "", owner := "" }]
          env := [("A", "1"), ("B", "2")]
          firewall := [{ domain := "a.com", cidr := "", ports := [] }]
          onSync := [] }
        { sync := [{ src := "s2x", dest := "/d2", mode := "0755", owner := "" },
                   { src := "s3", dest := "/d3", mode := "", owner := "" }]
          env := [("B", "3"), ("C", "4")]
          firewall := [{ domain := "", cidr := "10.0.0.0/8", ports := [443] }]
          onSync := [] }).sync →
      lastRuleFor
        (([{ src := "s1", dest := "/d1", mode := "", owner := "" },
           { src := "s2", dest := "/d2", mode := "", owner := "" }] : List SyncRule) ++
         ([{ src := "s2x", dest := "/d2", mode := "0755", owner := "" },
           { src := "s3", dest := "/d3", mode := "", owner := "" }] : List SyncRule)) r.dest =
        some r) ∧
    (mergeConfig
        { sync := [{ src := "s1", dest := "/d1", mode := "", owner := "" },
                   { src := "s2", dest := "/d2", mode := "", owner := "" }]
          env := [("A", "1"), ("B", "2")]
          firewall := [{ domain := "a.com", cidr := "", ports := [] }]
          onSync := [] }
        { sync := [{ src := "s2x", dest := "/d2", mode := "0755", owner := "" },
                   { src := "s3", dest := "/d3", mode := "", owner := "" }]
          env := [("B", "3"), ("C", "4")]
          firewall := [{ domain := "", cidr := "10.0.0.0/8", ports := [443] }]
          onSync := [] }).firewall =
      [{ domain := "a.com", cidr := "", ports := [] }] ++
        [{ domain := "", cidr := "10.0.0.0/8", ports := [443] }] :=
  C8_merge_semantics
    { sync := [{ src := "s1", dest := "/d1", mode := "", owner := "" },
               { src := "s2", dest := "/d2", mode := "", owner := "" }]
      env := [("A", "1"), ("B", "2")]
      firewall := [{ domain := "a.com", cidr := "", ports := [] }]
      onSync := [] }
    { sync := [{ src := "s2x", dest := "/d2", mode := "0755", owner := "" },
               { src := "s3", dest := "/d3", mode := "", owner := "" }]
      env := [("B", "3"), ("C", "4")]
      firewall := [{ domain := "", cidr := "10.0.0.0/8", ports := [443] }]
      onSync := [] }
    (by decide) (by decide)

end Sandbox
